import Mathlib

/-!
Verification development for the IPAnalyzer repository core:
the CIDR/subnet arithmetic and range-matching engine spread over
`ipanalyzer/modules/ip_utils.py`, `ipanalyzer/modules/ip_range_analyzer.py`,
`ipanalyzer/modules/geoip_analyzer.py` and `ipanalyzer/modules/bgp_analyzer.py`.

Python machine integers are unbounded, so all arithmetic is embedded on `Nat`
and `Int` with explicit `% 2^32` where the source masks with `& 0xFFFFFFFF`.
Functions that can raise a Python exception are embedded as `Option` (or
`Except String`) valued functions, with `none` standing for a raise.
-/

/-- ASCII decimal digit characters, as matched by C `isdigit` and by the
ASCII fragment of Python `\d`. -/
def isDigitC (c : Char) : Bool := '0' ≤ c && c ≤ '9'

/-- ASCII octal digit characters. -/
def isOctC (c : Char) : Bool := '0' ≤ c && c ≤ '7'

/-- ASCII hexadecimal digit characters, as matched by C `isxdigit`. -/
def isHexC (c : Char) : Bool :=
  isDigitC c || ('a' ≤ c && c ≤ 'f') || ('A' ≤ c && c ≤ 'F')

/-- ASCII whitespace, as matched by C `isascii(c) && isspace(c)`. -/
def isSpaceC (c : Char) : Bool :=
  c = ' ' || c = '\t' || c = '\n' || c = '\x0b' || c = '\x0c' || c = '\r'

/-- Numeric value of an ASCII decimal digit. -/
def digitValC (c : Char) : Nat := c.toNat - 48

/-- Numeric value of an ASCII hexadecimal digit. -/
def hexValC (c : Char) : Nat :=
  if isDigitC c then c.toNat - 48
  else if 'a' ≤ c && c ≤ 'f' then c.toNat - 87
  else c.toNat - 55

/-- Longest boolean-satisfying prefix of a character list together with the
remainder (the classic span on lists, kept as an explicit recursion so that
the parsing lemmas below unfold cleanly). -/
def spanC (p : Char → Bool) : List Char → List Char × List Char
  | [] => ([], [])
  | c :: cs =>
    if p c then
      let r := spanC p cs
      (c :: r.1, r.2)
    else ([], c :: cs)

/-- Decimal value of a digit string, accumulating left to right exactly as
C `strtoul` does. -/
def foldDecC (ds : List Char) : Nat := ds.foldl (fun a c => a * 10 + digitValC c) 0

/-- Octal value of a digit string. -/
def foldOctC (ds : List Char) : Nat := ds.foldl (fun a c => a * 8 + digitValC c) 0

/-- Hexadecimal value of a digit string. -/
def foldHexC (ds : List Char) : Nat := ds.foldl (fun a c => a * 16 + hexValC c) 0

/-- Model of the C `strtoul(cp, &endp, 0)` call made by `inet_aton` for one
dot-separated component: base selected by prefix (`0x`/`0X` hexadecimal,
leading `0` octal, otherwise decimal), returning the parsed value and the
unconsumed remainder.  `inet_aton` has already checked that the first
character is a digit; on a non-digit first character the model returns
`none`.  A bare `0x` with no hexadecimal digit after it parses as the
number `0` with the `x` left unconsumed, as `strtoul` specifies. -/
def strtoul0 : List Char → Option (Nat × List Char)
  | [] => none
  | c :: rest =>
    if c = '0' then
      match rest with
      | c2 :: rest2 =>
        if c2 = 'x' || c2 = 'X' then
          let r := spanC isHexC rest2
          if r.1.isEmpty then some (0, c2 :: rest2)
          else some (foldHexC r.1, r.2)
        else
          let r := spanC isOctC rest
          some (foldOctC r.1, r.2)
      | [] => some (0, [])
    else if isDigitC c then
      let r := spanC isDigitC (c :: rest)
      some (foldDecC r.1, r.2)
    else none

/-- True when the remainder after the parsed number is acceptable to
`inet_aton`: either the end of the string, or a first character that is
ASCII whitespace (everything after such whitespace is ignored). -/
def inetRestOk : List Char → Bool
  | [] => true
  | c :: _ => isSpaceC c

/-- Model of the classic BSD / glibc `inet_aton` on a character list:
one to four dot-separated numeric parts, each parsed by `strtoul` with
base detection; with four parts each must fit a byte, with fewer parts the
last part covers the remaining bytes.  Returns the 32-bit address value. -/
def inetAtonCore (cs : List Char) : Option Nat :=
  match strtoul0 cs with
  | none => none
  | some (v1, r1) =>
    match r1 with
    | '.' :: cs2 =>
      if 255 < v1 then none else
      match strtoul0 cs2 with
      | none => none
      | some (v2, r2) =>
        match r2 with
        | '.' :: cs3 =>
          if 255 < v2 then none else
          match strtoul0 cs3 with
          | none => none
          | some (v3, r3) =>
            match r3 with
            | '.' :: cs4 =>
              if 255 < v3 then none else
              match strtoul0 cs4 with
              | none => none
              | some (v4, r4) =>
                match r4 with
                | '.' :: _ => none
                | _ =>
                  if inetRestOk r4 && v4 ≤ 255 then
                    some (v1 * 16777216 + v2 * 65536 + v3 * 256 + v4)
                  else none
            | _ =>
              if inetRestOk r3 && v3 ≤ 65535 then
                some (v1 * 16777216 + v2 * 65536 + v3)
              else none
        | _ =>
          if inetRestOk r2 && v2 ≤ 16777215 then
            some (v1 * 16777216 + v2)
          else none
    | _ =>
      if inetRestOk r1 && v1 ≤ 4294967295 then some v1 else none

/-- Model of `IPConverter.ip_to_int` (`ip_utils.py`), which unpacks
`socket.inet_aton(ip)` as a big-endian 32-bit integer and turns every
failure into a raised `ValueError`.  A raise is modelled as `none`.  A
string holding an
embedded NUL character makes the CPython argument conversion raise before
`inet_aton` is reached, so it is rejected up front. -/
def IPConverter.ip_to_int (ip : String) : Option Nat :=
  if Char.ofNat 0 ∈ ip.data then none else inetAtonCore ip.data

/-- Decimal rendering of one byte value (valid for `b < 1000`, applied only
to values below 256), as produced by the `%u` formatting inside
`inet_ntoa`. -/
def byteRepr (b : Nat) : List Char :=
  if b < 10 then [Char.ofNat (48 + b)]
  else if b < 100 then [Char.ofNat (48 + b / 10), Char.ofNat (48 + b % 10)]
  else [Char.ofNat (48 + b / 100), Char.ofNat (48 + b / 10 % 10), Char.ofNat (48 + b % 100 % 10)]

/-- Model of `IPConverter.int_to_ip` (`ip_utils.py`):
`socket.inet_ntoa(struct.pack(..., num))`, the dotted-quad rendering of the
four big-endian bytes of `num`.  `struct.pack` raises unless
`0 <= num < 2^32`; every call site below passes a masked value in range, and
the model reads the low 32 bits. -/
def IPConverter.int_to_ip (num : Nat) : String :=
  ⟨byteRepr (num / 16777216 % 256) ++ '.' ::
    (byteRepr (num / 65536 % 256) ++ '.' ::
      (byteRepr (num / 256 % 256) ++ '.' :: byteRepr (num % 256)))⟩

example : IPConverter.ip_to_int "8.8.8.8" = some 134744072 := by decide
example : IPConverter.ip_to_int "127.1" = some 2130706433 := by decide
example : IPConverter.ip_to_int "" = none := by decide
example : IPConverter.ip_to_int "08.0.0.1" = none := by decide
example : IPConverter.ip_to_int "010.0.0.1" = some 134217729 := by decide
example : IPConverter.ip_to_int "0x10.0.0.1" = some 268435457 := by decide
example : IPConverter.ip_to_int "1.2.3.4 junk" = some 16909060 := by decide
example : IPConverter.ip_to_int "1.2.3.4junk" = none := by decide
example : IPConverter.int_to_ip 134744072 = "8.8.8.8" := by decide
example : IPConverter.int_to_ip 3232235776 = "192.168.1.0" := by decide

/-! ### Round-trip: parsing a rendered dotted-quad recovers the integer -/

theorem spanC_append (p : Char → Bool) (xs ys : List Char)
    (h1 : ∀ c ∈ xs, p c = true) (h2 : ∀ c, ys.head? = some c → p c = false) :
    spanC p (xs ++ ys) = (xs, ys) := by
  induction xs with
  | nil =>
    cases ys with
    | nil => rfl
    | cons c cs =>
      have := h2 c rfl
      simp [spanC, this]
  | cons c cs ih =>
    have hc := h1 c (by simp)
    have ih2 := ih (fun d hd => h1 d (by simp [hd]))
    simp [spanC, hc, ih2]

set_option maxRecDepth 4096 in
theorem byteRepr_facts : ∀ b < 256, (byteRepr b).all isDigitC = true ∧
    byteRepr b ≠ [] ∧ foldDecC (byteRepr b) = b ∧
    (1 ≤ b → (byteRepr b).head? ≠ some '0') := by decide

theorem strtoul0_digits (ds rest : List Char) (hne : ds ≠ [])
    (hd : ∀ c ∈ ds, isDigitC c = true) (hz : ds.head? ≠ some '0')
    (hr : ∀ c, rest.head? = some c → isDigitC c = false) :
    strtoul0 (ds ++ rest) = some (foldDecC ds, rest) := by
  cases ds with
  | nil => exact absurd rfl hne
  | cons c cs =>
    have hc : isDigitC c = true := hd c (by simp)
    have hcz : ¬ (c = '0') := by
      intro h
      exact hz (by simp [h])
    have hspan : spanC isDigitC (c :: (cs ++ rest)) = (c :: cs, rest) := by
      have := spanC_append isDigitC (c :: cs) rest hd hr
      simpa using this
    simp [strtoul0, hcz, hc, hspan]

theorem strtoul0_byteRepr (b : Nat) (hb : b < 256) (rest : List Char)
    (hr : ∀ c, rest.head? = some c → c = '.') :
    strtoul0 (byteRepr b ++ rest) = some (b, rest) := by
  have hdot : ∀ c, rest.head? = some c → isDigitC c = false := by
    intro c h
    rw [hr c h]
    decide
  rcases Nat.eq_zero_or_pos b with hb0 | hb1
  · subst hb0
    have hz : byteRepr 0 = ['0'] := by decide
    rw [hz]
    cases rest with
    | nil => rfl
    | cons c2 rest2 =>
      have hc2 : c2 = '.' := hr c2 rfl
      subst hc2
      have hspan : spanC isOctC ('.' :: rest2) = ([], '.' :: rest2) := by
        simp [spanC, isOctC]
      simp [strtoul0, hspan, foldOctC]
  · obtain ⟨hall, hne, hfold, hhead⟩ := byteRepr_facts b hb
    have := strtoul0_digits (byteRepr b) rest hne
      (fun c hc => by
        have h2 := List.all_eq_true.mp hall c
        simpa using h2 hc)
      (hhead hb1) hdot
    rw [this, hfold]

theorem dotHead (l : List Char) (c : Char) (h : (('.' : Char) :: l).head? = some c) :
    c = '.' := by
  simp at h
  exact h.symm

theorem inetAtonCore_quad (b1 b2 b3 b4 : Nat)
    (h1 : b1 < 256) (h2 : b2 < 256) (h3 : b3 < 256) (h4 : b4 < 256) :
    inetAtonCore (byteRepr b1 ++ '.' ::
        (byteRepr b2 ++ '.' :: (byteRepr b3 ++ '.' :: byteRepr b4))) =
      some (b1 * 16777216 + b2 * 65536 + b3 * 256 + b4) := by
  have s1 := strtoul0_byteRepr b1 h1
    ('.' :: (byteRepr b2 ++ '.' :: (byteRepr b3 ++ '.' :: byteRepr b4))) (dotHead _)
  have s2 := strtoul0_byteRepr b2 h2
    ('.' :: (byteRepr b3 ++ '.' :: byteRepr b4)) (dotHead _)
  have s3 := strtoul0_byteRepr b3 h3 ('.' :: byteRepr b4) (dotHead _)
  have s4 := strtoul0_byteRepr b4 h4 [] (by intro c h; simp at h)
  have e4 : byteRepr b4 ++ ([] : List Char) = byteRepr b4 := by simp
  rw [e4] at s4
  simp only [inetAtonCore, s1, s2, s3, s4]
  have n1 : ¬ (255 < b1) := by omega
  have n2 : ¬ (255 < b2) := by omega
  have n3 : ¬ (255 < b3) := by omega
  have hr4 : byteRepr b4 ≠ [] → True := fun _ => trivial
  simp [n1, n2, n3, inetRestOk]
  omega

theorem ip_to_int_int_to_ip (n : Nat) (hn : n < 4294967296) :
    IPConverter.ip_to_int (IPConverter.int_to_ip n) = some n := by
  have hb1 : n / 16777216 % 256 < 256 := Nat.mod_lt _ (by norm_num)
  have hb2 : n / 65536 % 256 < 256 := Nat.mod_lt _ (by norm_num)
  have hb3 : n / 256 % 256 < 256 := Nat.mod_lt _ (by norm_num)
  have hb4 : n % 256 < 256 := Nat.mod_lt _ (by norm_num)
  have hdata : (IPConverter.int_to_ip n).data =
      byteRepr (n / 16777216 % 256) ++ '.' ::
        (byteRepr (n / 65536 % 256) ++ '.' ::
          (byteRepr (n / 256 % 256) ++ '.' :: byteRepr (n % 256))) := rfl
  have hdig : ∀ b, b < 256 → ∀ c ∈ byteRepr b, isDigitC c = true := by
    intro b hb c hcb
    have h2 := List.all_eq_true.mp (byteRepr_facts b hb).1 c
    simpa using h2 hcb
  have hnul : ¬ (Char.ofNat 0 ∈ (IPConverter.int_to_ip n).data) := by
    rw [hdata]
    intro hc
    simp only [List.mem_append, List.mem_cons] at hc
    have hz : isDigitC (Char.ofNat 0) = false ∧ ¬ (Char.ofNat 0 = '.') := by decide
    rcases hc with h | h | h | h | h | h | h
    · exact absurd (hdig _ hb1 _ h) (by simp [hz.1])
    · exact hz.2 h
    · exact absurd (hdig _ hb2 _ h) (by simp [hz.1])
    · exact hz.2 h
    · exact absurd (hdig _ hb3 _ h) (by simp [hz.1])
    · exact hz.2 h
    · exact absurd (hdig _ hb4 _ h) (by simp [hz.1])
  show (if Char.ofNat 0 ∈ (IPConverter.int_to_ip n).data then none
    else inetAtonCore (IPConverter.int_to_ip n).data) = some n
  rw [if_neg hnul, hdata, inetAtonCore_quad _ _ _ _ hb1 hb2 hb3 hb4]
  congr 1
  omega

/-! ### Python int() on strings, the netmask word, and CIDR parsing -/

/-- Digit run of a Python integer literal body: decimal digits with single
underscores allowed between digits (CPython `int(str)` grammar). -/
def pyIntDigitsAux : List Char → Nat → Option Nat
  | [], acc => some acc
  | '_' :: c :: cs, acc =>
    if isDigitC c then pyIntDigitsAux cs (acc * 10 + digitValC c) else none
  | ['_'], _ => none
  | c :: cs, acc =>
    if isDigitC c then pyIntDigitsAux cs (acc * 10 + digitValC c) else none

/-- Nonempty digit run starting a Python integer literal body. -/
def pyIntDigits : List Char → Option Nat
  | [] => none
  | c :: cs => if isDigitC c then pyIntDigitsAux cs (digitValC c) else none

/-- Both-ends whitespace strip performed by CPython `int(str)` (the ASCII
fragment; other Unicode space characters are not modelled). -/
def stripWS (cs : List Char) : List Char :=
  ((cs.dropWhile isSpaceC).reverse.dropWhile isSpaceC).reverse

/-- Model of CPython `int(s)` for a string argument: strip whitespace, an
optional sign, then decimal digits with optional single underscores between
digits.  A raised `ValueError` is `none`. -/
def pyInt (s : String) : Option Int :=
  match stripWS s.data with
  | '-' :: rest => (pyIntDigits rest).map (fun n => -(n : Int))
  | '+' :: rest => (pyIntDigits rest).map (fun n => (n : Int))
  | t => (pyIntDigits t).map (fun n => (n : Int))

example : pyInt "24" = some 24 := by decide
example : pyInt " 24\n" = some 24 := by decide
example : pyInt "-5" = some (-5) := by decide
example : pyInt "2_4" = some 24 := by decide
example : pyInt "2__4" = none := by decide
example : pyInt "" = none := by decide
example : pyInt "24x" = none := by decide

/-- The netmask word `(0xFFFFFFFF << (32 - prefixLength)) & 0xFFFFFFFF`
appearing verbatim in `CIDRCalculator.parse_cidr`,
`IPRangeAnalyzer.get_subnet_mask_from_prefix` and `IPRangeAnalyzer.supernet`.
The argument is `Int` because the prefix comes from Python `int(...)`; a
negative prefix makes the shift count exceed 32 and the masked result `0`,
exactly as in Python.  Callers guard the `prefixLength > 32` case, where
Python raises on a negative shift count. -/
def pyMask (p : Int) : Nat := (4294967295 <<< (32 - p).toNat) % 4294967296

example : pyMask 0 = 0 := by decide
example : pyMask 24 = 4294967040 := by decide
example : pyMask 32 = 4294967295 := by decide
example : pyMask (-3) = 0 := by decide

/-- Model of Python `str.split(sep)` for a single-character separator:
split at every occurrence, keeping empty parts (structural recursion, so
that concrete instances reduce inside the kernel). -/
def splitOnC (sep : Char) : List Char → List (List Char)
  | [] => [[]]
  | c :: cs =>
    if c = sep then [] :: splitOnC sep cs
    else
      match splitOnC sep cs with
      | [] => [[c]]
      | r :: rs => (c :: r) :: rs

example : splitOnC '/' "192.168.1.0/24".data = ["192.168.1.0".data, "24".data] := by decide
example : splitOnC '/' "a//b".data = ["a".data, "".data, "b".data] := by decide

/-- Model of `CIDRCalculator.parse_cidr` (`ip_utils.py`): split on `/`
(exactly two parts, or the tuple unpacking raises), parse the prefix with
`int`, compute the netmask word, and return
`(network_ip, broadcast_ip, netmask, prefix_length)` as rendered strings.
`~mask & 0xFFFFFFFF` is written as `4294967295 - mask`, which agrees with
Python two-complement semantics for `0 <= mask < 2^32`.  A prefix above 32
makes the Python shift count negative, which raises; this is the guard. -/
def CIDRCalculator.parse_cidr (cidr : String) : Option (String × String × String × Int) :=
  match splitOnC '/' cidr.data with
  | [ip, pfxStr] =>
    match pyInt ⟨pfxStr⟩ with
    | none => none
    | some p =>
      if 32 < p then none
      else
        let mask_bits := pyMask p
        let netmask := IPConverter.int_to_ip mask_bits
        match IPConverter.ip_to_int ⟨ip⟩ with
        | none => none
        | some ip_int =>
          let network_int := ip_int &&& mask_bits
          let broadcast_int := network_int ||| (4294967295 - mask_bits)
          some (IPConverter.int_to_ip network_int, IPConverter.int_to_ip broadcast_int,
            netmask, p)
  | _ => none

/-- Model of `CIDRCalculator.get_ip_range`: re-parse the CIDR and convert the
rendered network and broadcast strings back to integers. -/
def CIDRCalculator.get_ip_range (cidr : String) : Option (Nat × Nat) :=
  match CIDRCalculator.parse_cidr cidr with
  | none => none
  | some (network_ip, broadcast_ip, _, _) =>
    match IPConverter.ip_to_int network_ip, IPConverter.ip_to_int broadcast_ip with
    | some s, some e => some (s, e)
    | _, _ => none

example : CIDRCalculator.parse_cidr "192.168.1.0/24" =
    some ("192.168.1.0", "192.168.1.255", "255.255.255.0", 24) := by decide
example : CIDRCalculator.get_ip_range "192.168.1.0/24" =
    some (3232235776, 3232236031) := by decide

/-- One `(\d{1,3})` capture group of the validator regexes: a maximal digit
run of length 1 to 3.  A longer run can never match (the following
mandatory separator would have to sit on a digit), so the backtracking
regex is deterministic here.  Returns the group value and the remainder. -/
def matchOctet (cs : List Char) : Option (Nat × List Char) :=
  let r := spanC isDigitC cs
  if 1 ≤ r.1.length ∧ r.1.length ≤ 3 then some (foldDecC r.1, r.2) else none

/-- The `$` anchor of `re.match`: end of string, or a final newline. -/
def reEndOk : List Char → Bool
  | [] => true
  | ['\n'] => true
  | _ => false

/-- Model of `IPValidator.is_valid_ipv4` (`ip_utils.py`): the regex
`^(\d{1,3})\.(\d{1,3})\.(\d{1,3})\.(\d{1,3})$` followed by the check that
every captured octet value is at most 255.  Only the ASCII fragment of
Python `\d` is modelled. -/
def IPValidator.is_valid_ipv4 (ip : String) : Bool :=
  match matchOctet ip.data with
  | some (a, '.' :: r1) =>
    match matchOctet r1 with
    | some (b, '.' :: r2) =>
      match matchOctet r2 with
      | some (c, '.' :: r3) =>
        match matchOctet r3 with
        | some (d, rest) =>
          reEndOk rest && a ≤ 255 && b ≤ 255 && c ≤ 255 && d ≤ 255
        | _ => false
      | _ => false
    | _ => false
  | _ => false

/-- One `(\d{1,2})` capture group (the prefix part of the CIDR regex). -/
def matchPfxGroup (cs : List Char) : Option (Nat × List Char) :=
  let r := spanC isDigitC cs
  if 1 ≤ r.1.length ∧ r.1.length ≤ 2 then some (foldDecC r.1, r.2) else none

/-- Model of `IPValidator.is_valid_cidr` (`ip_utils.py`): the regex
`^(\d{1,3})\.(\d{1,3})\.(\d{1,3})\.(\d{1,3})/(\d{1,2})$` followed by the
octet bound checks and the prefix range check `0 <= prefix <= 32`. -/
def IPValidator.is_valid_cidr (cidr : String) : Bool :=
  match matchOctet cidr.data with
  | some (a, '.' :: r1) =>
    match matchOctet r1 with
    | some (b, '.' :: r2) =>
      match matchOctet r2 with
      | some (c, '.' :: r3) =>
        match matchOctet r3 with
        | some (d, '/' :: r4) =>
          match matchPfxGroup r4 with
          | some (p, rest) =>
            reEndOk rest && a ≤ 255 && b ≤ 255 && c ≤ 255 && d ≤ 255 && p ≤ 32
          | _ => false
        | _ => false
      | _ => false
    | _ => false
  | _ => false

example : IPValidator.is_valid_ipv4 "8.8.8.8" = true := by decide
example : IPValidator.is_valid_ipv4 "8.8.8" = false := by decide
example : IPValidator.is_valid_ipv4 "256.1.1.1" = false := by decide
example : IPValidator.is_valid_ipv4 "1.2.3.4\n" = true := by decide
example : IPValidator.is_valid_cidr "192.168.1.0/24" = true := by decide
example : IPValidator.is_valid_cidr "192.168.1.0/33" = false := by decide
example : IPValidator.is_valid_cidr "192.168.1.0" = false := by decide

/-! ### Arithmetic of the netmask word -/

theorem pyMask_eq (p : Nat) (hp : p ≤ 32) :
    pyMask (p : Int) = 4294967296 - 2 ^ (32 - p) := by
  have h1 : ((32 : Int) - p).toNat = 32 - p := by omega
  show (4294967295 <<< ((32 : Int) - (p : Int)).toNat) % 4294967296 = _
  rw [h1]
  have h2 : ∀ q, q ≤ 32 → (4294967295 <<< (32 - q)) % 4294967296 =
      4294967296 - 2 ^ (32 - q) := by decide
  exact h2 p hp

theorem two_pow_le_32 (m : Nat) (hm : m ≤ 32) : 2 ^ m ≤ 4294967296 := by
  calc 2 ^ m ≤ 2 ^ 32 := Nat.pow_le_pow_right (by norm_num) hm
  _ = 4294967296 := by norm_num

theorem mask_complement_eq (m : Nat) (hm : m ≤ 32) :
    4294967295 - (4294967296 - 2 ^ m) = 2 ^ m - 1 := by
  have := two_pow_le_32 m hm
  have h1 : 1 ≤ 2 ^ m := Nat.one_le_two_pow
  omega

theorem mask_factor (m : Nat) (hm : m ≤ 32) :
    4294967296 - 2 ^ m = (2 ^ (32 - m) - 1) * 2 ^ m := by
  have h : 2 ^ (32 - m) * 2 ^ m = 4294967296 := by
    rw [← pow_add, Nat.sub_add_cancel hm]
    norm_num
  calc 4294967296 - 2 ^ m = 2 ^ (32 - m) * 2 ^ m - 1 * 2 ^ m := by rw [h, one_mul]
  _ = (2 ^ (32 - m) - 1) * 2 ^ m := (Nat.sub_mul _ _ _).symm

theorem and_mask_eq_round (x m : Nat) (hx : x < 4294967296) (hm : m ≤ 32) :
    x &&& (4294967296 - 2 ^ m) = x / 2 ^ m * 2 ^ m := by
  apply Nat.eq_of_testBit_eq
  intro i
  rw [Nat.testBit_and]
  have hmask : (4294967296 - 2 ^ m) = (2 ^ (32 - m) - 1) <<< m := by
    rw [mask_factor m hm, Nat.shiftLeft_eq]
  have hrhs : x / 2 ^ m * 2 ^ m = (x >>> m) <<< m := by
    rw [Nat.shiftRight_eq_div_pow, Nat.shiftLeft_eq]
  rw [hmask, hrhs, Nat.testBit_shiftLeft, Nat.testBit_shiftLeft, Nat.testBit_shiftRight,
    Nat.testBit_two_pow_sub_one]
  by_cases him : m ≤ i
  · have hhi : m + (i - m) = i := by omega
    rw [hhi]
    by_cases hi32 : i < 32
    · have hlt : i - m < 32 - m := by omega
      simp [him, hlt, Bool.and_comm]
    · have hxbit : x.testBit i = false := by
        apply Nat.testBit_lt_two_pow
        calc x < 4294967296 := hx
        _ = 2 ^ 32 := by norm_num
        _ ≤ 2 ^ i := Nat.pow_le_pow_right (by norm_num) (by omega)
      simp [him, hxbit]
  · simp [him]

theorem or_low_bits (n m : Nat) (h : n % 2 ^ m = 0) :
    n ||| (2 ^ m - 1) = n + (2 ^ m - 1) := by
  have hd : n / 2 ^ m * 2 ^ m = n := Nat.div_mul_cancel (Nat.dvd_of_mod_eq_zero h)
  have hb : 2 ^ m - 1 < 2 ^ m := Nat.sub_lt (Nat.pos_pow_of_pos m (by norm_num)) one_pos
  calc n ||| (2 ^ m - 1) = 2 ^ m * (n / 2 ^ m) ||| (2 ^ m - 1) := by
        rw [mul_comm, hd]
  _ = 2 ^ m * (n / 2 ^ m) + (2 ^ m - 1) := (Nat.mul_add_lt_is_or hb _).symm
  _ = n + (2 ^ m - 1) := by rw [mul_comm, hd]

theorem inetAtonCore_lt (cs : List Char) (n : Nat) (h : inetAtonCore cs = some n) :
    n < 4294967296 := by
  unfold inetAtonCore at h
  repeat' split at h
  all_goals simp at h
  all_goals simp only [Bool.and_eq_true, decide_eq_true_eq] at *
  all_goals omega

theorem ip_to_int_lt (s : String) (n : Nat) (h : IPConverter.ip_to_int s = some n) :
    n < 4294967296 := by
  unfold IPConverter.ip_to_int at h
  split at h
  · exact absurd h (by simp)
  · exact inetAtonCore_lt _ _ h

/-! ### Characterization of a successful CIDR parse -/

theorem parse_cidr_range (cidr nw bc nm : String) (p : Int)
    (hp : 0 ≤ p)
    (h : CIDRCalculator.parse_cidr cidr = some (nw, bc, nm, p)) :
    p ≤ 32 ∧ ∃ n0 : Nat,
      nw = IPConverter.int_to_ip n0 ∧
      bc = IPConverter.int_to_ip (n0 + (2 ^ (32 - p.toNat) - 1)) ∧
      nm = IPConverter.int_to_ip (pyMask p) ∧
      n0 % 2 ^ (32 - p.toNat) = 0 ∧
      n0 + (2 ^ (32 - p.toNat) - 1) < 4294967296 ∧
      CIDRCalculator.get_ip_range cidr = some (n0, n0 + (2 ^ (32 - p.toNat) - 1)) := by
  have horig := h
  unfold CIDRCalculator.parse_cidr at h
  repeat' split at h
  all_goals simp at h
  rename_i xs ipcs pfxcs hsplit xo pInt hpy hgt xi ipInt hip
  obtain ⟨hnw, hbc, hnm, hpp⟩ := h
  have hpp2 : p = pInt := hpp.symm
  subst hpp2
  have hple : p ≤ 32 := by omega
  have hpn : p.toNat ≤ 32 := by omega
  have hcast : ((p.toNat : Nat) : Int) = p := Int.toNat_of_nonneg hp
  have hmask : pyMask p = 4294967296 - 2 ^ (32 - p.toNat) := by
    have hm := pyMask_eq p.toNat hpn
    rw [hcast] at hm
    exact hm
  have hmle : 32 - p.toNat ≤ 32 := by omega
  have hxlt : ipInt < 4294967296 := ip_to_int_lt _ _ hip
  have hround : ipInt &&& pyMask p = ipInt / 2 ^ (32 - p.toNat) * 2 ^ (32 - p.toNat) := by
    rw [hmask]
    exact and_mask_eq_round _ _ hxlt hmle
  have hal : (ipInt &&& pyMask p) % 2 ^ (32 - p.toNat) = 0 := by
    rw [hround]
    exact Nat.mul_mod_left _ _
  have hcompl : 4294967295 - pyMask p = 2 ^ (32 - p.toNat) - 1 := by
    rw [hmask]
    exact mask_complement_eq _ hmle
  have hor : (ipInt &&& pyMask p) ||| (4294967295 - pyMask p) =
      (ipInt &&& pyMask p) + (2 ^ (32 - p.toNat) - 1) := by
    rw [hcompl]
    exact or_low_bits _ _ hal
  have hn0lt : ipInt &&& pyMask p < 4294967296 := lt_of_le_of_lt Nat.and_le_left hxlt
  have hbound : (ipInt &&& pyMask p) + (2 ^ (32 - p.toNat) - 1) < 4294967296 := by
    have hfac := mask_factor _ hmle
    have hle32 := two_pow_le_32 _ hmle
    have h1 : 1 ≤ 2 ^ (32 - p.toNat) := Nat.one_le_two_pow
    have hq : ipInt / 2 ^ (32 - p.toNat) < 2 ^ (32 - (32 - p.toNat)) := by
      apply Nat.div_lt_of_lt_mul
      calc ipInt < 4294967296 := hxlt
      _ = 2 ^ (32 - p.toNat) * 2 ^ (32 - (32 - p.toNat)) := by
        rw [← pow_add]
        have he : 32 - p.toNat + (32 - (32 - p.toNat)) = 32 := by omega
        rw [he]
        norm_num
    have hqle : ipInt / 2 ^ (32 - p.toNat) ≤ 2 ^ (32 - (32 - p.toNat)) - 1 := by omega
    have hstep : ipInt / 2 ^ (32 - p.toNat) * 2 ^ (32 - p.toNat) ≤
        (2 ^ (32 - (32 - p.toNat)) - 1) * 2 ^ (32 - p.toNat) :=
      Nat.mul_le_mul_right _ hqle
    rw [hround]
    omega
  have e1 : IPConverter.ip_to_int nw = some (ipInt &&& pyMask p) := by
    rw [← hnw]
    exact ip_to_int_int_to_ip _ hn0lt
  have e2 : IPConverter.ip_to_int bc =
      some ((ipInt &&& pyMask p) + (2 ^ (32 - p.toNat) - 1)) := by
    rw [← hbc, hor]
    exact ip_to_int_int_to_ip _ hbound
  have hrange : CIDRCalculator.get_ip_range cidr =
      some (ipInt &&& pyMask p, (ipInt &&& pyMask p) + (2 ^ (32 - p.toNat) - 1)) := by
    unfold CIDRCalculator.get_ip_range
    rw [horig]
    simp [e1, e2]
  exact ⟨hple, ipInt &&& pyMask p, hnw.symm, by rw [← hor]; exact hbc.symm,
    hnm.symm, hal, hbound, hrange⟩

/-! ### The range-analyzer facade: analyze_cidr, subdivision, supernet -/

/-- Model of `IPRangeAnalyzer.get_ip_class`: classify by the first octet of
the rendered address string, obtained by `int(ip.split()...)` on the part
before the first dot. -/
def IPRangeAnalyzer.get_ip_class (ip : String) : Option String :=
  match splitOnC '.' ip.data with
  | [] => none
  | c :: _ =>
    match pyInt ⟨c⟩ with
    | none => none
    | some f =>
      some (if f < 128 then "Class A"
        else if f < 192 then "Class B"
        else if f < 224 then "Class C"
        else if f < 240 then "Class D (Multicast)"
        else "Class E (Reserved)")

/-- Result record of `IPRangeAnalyzer.analyze_cidr`, one field per key of
the returned Python dictionary. -/
structure CIDRAnalysis where
  cidr : String
  network_ip : String
  broadcast_ip : String
  netmask : String
  pfx_length : Int
  total_addresses : Nat
  usable_hosts : Nat
  ip_class : String
  first_usable : String
  last_usable : String
deriving DecidableEq, Repr

/-- Model of `IPRangeAnalyzer.analyze_cidr` (`ip_range_analyzer.py`):
validate with the CIDR regex, parse, recover the numeric range, and report
totals; `usable_hosts = max(0, total_hosts - 2)` is Nat truncated
subtraction; when no usable host exists the network and broadcast strings
double as first and last usable. -/
def IPRangeAnalyzer.analyze_cidr (cidr : String) : Option CIDRAnalysis :=
  if ¬ IPValidator.is_valid_cidr cidr then none
  else
    match CIDRCalculator.parse_cidr cidr with
    | none => none
    | some (network_ip, broadcast_ip, netmask, p) =>
      match CIDRCalculator.get_ip_range cidr with
      | none => none
      | some (s, e) =>
        let total := e - s + 1
        let usable := total - 2
        match IPRangeAnalyzer.get_ip_class network_ip with
        | none => none
        | some cls =>
          some { cidr := cidr,
                 network_ip := network_ip,
                 broadcast_ip := broadcast_ip,
                 netmask := netmask,
                 pfx_length := p,
                 total_addresses := total,
                 usable_hosts := usable,
                 ip_class := cls,
                 first_usable :=
                   if 0 < usable then IPConverter.int_to_ip (s + 1) else network_ip,
                 last_usable :=
                   if 0 < usable then IPConverter.int_to_ip (e - 1) else broadcast_ip }

example : IPRangeAnalyzer.analyze_cidr "192.168.1.0/24" = some
    { cidr := "192.168.1.0/24", network_ip := "192.168.1.0",
      broadcast_ip := "192.168.1.255", netmask := "255.255.255.0",
      pfx_length := 24, total_addresses := 256, usable_hosts := 254,
      ip_class := "Class C", first_usable := "192.168.1.1",
      last_usable := "192.168.1.254" } := by decide

/-- Model of `IPRangeAnalyzer.get_subnet_mask_from_prefix`
(`ip_range_analyzer.py`, the name is shortened here): range-check the
prefix, then render the netmask word. -/
def IPRangeAnalyzer.get_subnet_mask_from_pfx (p : Int) : Option String :=
  if 0 ≤ p ∧ p ≤ 32 then some (IPConverter.int_to_ip (pyMask p)) else none

/-- Model of `CIDRCalculator.subnets_from_cidr` (`ip_utils.py`): parse, and
when the requested prefix is larger than the original one produce the
`2 ^ (new - old)` rendered subnet strings, stepping by `2 ^ (32 - new)`.
For a requested prefix above 32 the Python `step` becomes a float and
`int_to_ip` raises on the float sum at the first loop iteration. -/
def CIDRCalculator.subnets_from_cidr (cidr : String) (subnetPfx : Int) : Option (List String) :=
  match CIDRCalculator.parse_cidr cidr with
  | none => none
  | some (network_ip, _, _, origPfx) =>
    if subnetPfx ≤ origPfx then some [cidr]
    else
      match IPConverter.ip_to_int network_ip with
      | none => none
      | some ip_int =>
        if 32 < subnetPfx then none
        else
          some ((List.range (2 ^ (subnetPfx - origPfx).toNat)).map (fun i =>
            IPConverter.int_to_ip (ip_int + i * 2 ^ (32 - subnetPfx).toNat) ++ "/" ++
              toString subnetPfx))

/-- Model of `IPRangeAnalyzer.subnet_division` (`ip_range_analyzer.py`):
validate, parse, no-op when the requested prefix does not exceed the
original, otherwise delegate to `subnets_from_cidr`. -/
def IPRangeAnalyzer.subnet_division (cidr : String) (newPfx : Int) : Option (List String) :=
  if ¬ IPValidator.is_valid_cidr cidr then none
  else
    match CIDRCalculator.parse_cidr cidr with
    | none => none
    | some (_, _, _, origPfx) =>
      if newPfx ≤ origPfx then some [cidr]
      else CIDRCalculator.subnets_from_cidr cidr newPfx

example : IPRangeAnalyzer.subnet_division "192.168.1.0/24" 26 =
    some ["192.168.1.0/26", "192.168.1.64/26", "192.168.1.128/26", "192.168.1.192/26"] := by
  decide

example : IPRangeAnalyzer.subnet_division "192.168.1.0/24" 24 =
    some ["192.168.1.0/24"] := by decide

example : IPRangeAnalyzer.subnet_division "192.168.1.0/24" 33 = none := by decide

/-- Per-input parse stage of `IPRangeAnalyzer.supernet`: for each CIDR,
`parse_cidr` then `ip_to_int` of the rendered network string, collecting
`(network_int, prefix_length)` pairs; any raise aborts the whole call. -/
def supernetParse : List String → Option (List (Nat × Int))
  | [] => some []
  | c :: cs =>
    match CIDRCalculator.parse_cidr c with
    | none => none
    | some (nw, _, _, p) =>
      match IPConverter.ip_to_int nw with
      | none => none
      | some n =>
        match supernetParse cs with
        | none => none
        | some rest => some ((n, p) :: rest)

/-- The all-inputs-agree test of the supernet loop body: every network
integer masked at `p` equals the first input masked at `p`. -/
def supernetAllMatch (ips : List Nat) (ip0 : Nat) (p : Nat) : Bool :=
  ips.all (fun ip => ip &&& pyMask (p : Int) == ip0 &&& pyMask (p : Int))

/-- The downward loop `for new_prefix in range(min_prefix, -1, -1)` of
`IPRangeAnalyzer.supernet`, returning at the first prefix where all inputs
agree; the global fallthrough (reached in Python only when the loop body
never returns) is kept although agreement at prefix 0 is automatic. -/
def supernetLoop (ips : List Nat) (ip0 : Nat) : Nat → String
  | 0 =>
    if supernetAllMatch ips ip0 0 then
      IPConverter.int_to_ip (ip0 &&& pyMask ((0 : Nat) : Int)) ++ "/" ++ toString (0 : Nat)
    else "0.0.0.0/0"
  | q + 1 =>
    if supernetAllMatch ips ip0 (q + 1) then
      IPConverter.int_to_ip (ip0 &&& pyMask (((q + 1 : Nat) : Nat) : Int)) ++ "/" ++
        toString (q + 1)
    else supernetLoop ips ip0 q

/-- Model of `IPRangeAnalyzer.supernet` (`ip_range_analyzer.py`): an empty
input raises `ValueError("Empty CIDR list")`; a single input is returned
unchanged; otherwise all inputs are parsed (any parse exception propagates,
collapsed here to the message `ValueError`), and the loop scans prefix
lengths downward from the minimum input prefix.  A negative minimum prefix
empties the Python `range`, falling through to the global block. -/
def IPRangeAnalyzer.supernet (cidrs : List String) : Except String String :=
  match cidrs with
  | [] => Except.error "Empty CIDR list"
  | [c] => Except.ok c
  | _ =>
    match supernetParse cidrs with
    | none => Except.error "ValueError"
    | some ipps =>
      match ipps with
      | [] => Except.error "ValueError"
      | (ip0, p0) :: rest =>
        let minPfx := rest.foldl (fun m q => min m q.2) p0
        if minPfx < 0 then Except.ok "0.0.0.0/0"
        else Except.ok (supernetLoop (ipps.map Prod.fst) ip0 minPfx.toNat)

example : IPRangeAnalyzer.supernet [] = Except.error "Empty CIDR list" := rfl
example : IPRangeAnalyzer.supernet ["10.0.0.7/8"] = Except.ok "10.0.0.7/8" := rfl
example : IPRangeAnalyzer.supernet ["192.168.0.0/24", "192.168.1.0/24"] =
    Except.ok "192.168.0.0/23" := rfl
example : IPRangeAnalyzer.supernet ["192.168.0.0/24", "10.0.0.0/24"] =
    Except.ok "0.0.0.0/0" := rfl

theorem supernetLoop_max (ips : List Nat) (ip0 : Nat) (P p : Nat) (hp : p ≤ P)
    (hmatch : supernetAllMatch ips ip0 p = true)
    (hmax : ∀ q, p < q → q ≤ P → supernetAllMatch ips ip0 q = false) :
    supernetLoop ips ip0 P =
      IPConverter.int_to_ip (ip0 &&& pyMask (p : Int)) ++ "/" ++ toString p := by
  induction P with
  | zero =>
    have hp0 : p = 0 := by omega
    subst hp0
    simp [supernetLoop, hmatch]
  | succ q ih =>
    by_cases hpq : p = q + 1
    · subst hpq
      simp [supernetLoop, hmatch]
    · have hlt : p ≤ q := by omega
      have hfail : supernetAllMatch ips ip0 (q + 1) = false :=
        hmax (q + 1) (by omega) (by omega)
      rw [supernetLoop, hfail]
      simp only [Bool.false_eq_true, if_false]
      exact ih hlt (fun r hr hrq => hmax r hr (by omega))

/-! ### GeoIP analyzer: dictionaries, sample database, cache -/

/-- A decimal float literal, represented exactly as
`mant / 10 ^ scale`.  No arithmetic is ever performed on these values in
the modelled code paths; distinct source literals stay distinct. -/
structure PyFloat where
  mant : Int
  scale : Nat
deriving DecidableEq, Repr

/-- Python values appearing in the analyzer result dictionaries: strings,
integers, `None`, decimal float literals, and lists of integers (the AS
path). -/
inductive PyVal
  | vstr (s : String)
  | vint (n : Int)
  | vfloat (f : PyFloat)
  | vnone
  | vintList (l : List Int)
deriving DecidableEq, Repr

/-- One metadata dictionary of `GeoIPAnalyzer._SAMPLE_DB`. -/
structure GeoMeta where
  country : String
  country_code : String
  region : String
  city : String
  latitude : PyFloat
  longitude : PyFloat
  timezone : String
  isp : String
  organization : String
  asn : Int
deriving DecidableEq, Repr

/-- A GeoIP result dictionary: one optional slot per key that any code path
of `geoip_analyzer.py` can put into a result.  A `none` field is an absent
key; `some PyVal.vnone` is a key holding Python `None`.  With this fixed
key universe, Python dict equality is structure equality. -/
structure GeoDict where
  ip : Option PyVal := none
  country : Option PyVal := none
  country_code : Option PyVal := none
  region : Option PyVal := none
  city : Option PyVal := none
  latitude : Option PyVal := none
  longitude : Option PyVal := none
  timezone : Option PyVal := none
  isp : Option PyVal := none
  organization : Option PyVal := none
  asn : Option PyVal := none
  error : Option PyVal := none
  distance_to_reference : Option PyVal := none
  reference_ip : Option PyVal := none
deriving DecidableEq, Repr

/-- Python `dict.get` / `in` lookup over an association-list model of a
dict (keys are unique by construction of the update below). -/
def pyDictGet {κ α : Type} [DecidableEq κ] : List (κ × α) → κ → Option α
  | [], _ => none
  | (k, v) :: t, s => if k = s then some v else pyDictGet t s

/-- Python `d[k] = v`: replace the existing binding or append a new one. -/
def pyDictSet {κ α : Type} [DecidableEq κ] : List (κ × α) → κ → α → List (κ × α)
  | [], s, v => [(s, v)]
  | (k, w) :: t, s, v => if k = s then (s, v) :: t else (k, w) :: pyDictSet t s v

/-- The table `GeoIPAnalyzer._SAMPLE_DB` (`geoip_analyzer.py`): `(start_int,
end_int, metadata)` triples.  The integer bounds are the values of the module-level
`IPConverter.ip_to_int` calls on the literal strings; the example below
rechecks every bound against the parser model. -/
def GeoIPAnalyzer.sampleDB : List (Nat × Nat × GeoMeta) := [
  (134744064, 134744319,
    { country := "United States", country_code := "US", region := "California",
      city := "Mountain View", latitude := { mant := 37386, scale := 3 },
      longitude := { mant := -1220838, scale := 4 }, timezone := "America/Los_Angeles",
      isp := "Google LLC", organization := "Google", asn := 15169 }),
  (16843008, 16843263,
    { country := "Australia", country_code := "AU", region := "New South Wales",
      city := "Sydney", latitude := { mant := -338591, scale := 4 },
      longitude := { mant := 1512002, scale := 4 }, timezone := "Australia/Sydney",
      isp := "Cloudflare Inc.", organization := "Cloudflare", asn := 13335 }),
  (16843136, 16843199,
    { country := "Singapore", country_code := "SG", region := "Singapore",
      city := "Singapore", latitude := { mant := 13521, scale := 4 },
      longitude := { mant := 1038198, scale := 4 }, timezone := "Asia/Singapore",
      isp := "Cloudflare Inc.", organization := "Cloudflare", asn := 13335 }),
  (16843200, 16843263,
    { country := "United Kingdom", country_code := "GB", region := "England",
      city := "London", latitude := { mant := 515074, scale := 4 },
      longitude := { mant := -1278, scale := 4 }, timezone := "Europe/London",
      isp := "Cloudflare Inc.", organization := "Cloudflare", asn := 13335 }),
  (3494108672, 3494108927,
    { country := "United States", country_code := "US", region := "California",
      city := "San Francisco", latitude := { mant := 377749, scale := 4 },
      longitude := { mant := -1224194, scale := 4 }, timezone := "America/Los_Angeles",
      isp := "Cisco Umbrella", organization := "Cisco Systems", asn := 8452 }),
  (151587072, 151587327,
    { country := "United States", country_code := "US", region := "New York",
      city := "New York", latitude := { mant := 407128, scale := 4 },
      longitude := { mant := -740060, scale := 4 }, timezone := "America/New_York",
      isp := "IBM", organization := "Quad9", asn := 22652 })]

example : GeoIPAnalyzer.sampleDB.map (fun e => (some e.1, some e.2.1)) = [
    (IPConverter.ip_to_int "8.8.8.0", IPConverter.ip_to_int "8.8.8.255"),
    (IPConverter.ip_to_int "1.1.1.0", IPConverter.ip_to_int "1.1.1.255"),
    (IPConverter.ip_to_int "1.1.1.128", IPConverter.ip_to_int "1.1.1.191"),
    (IPConverter.ip_to_int "1.1.1.192", IPConverter.ip_to_int "1.1.1.255"),
    (IPConverter.ip_to_int "208.67.222.0", IPConverter.ip_to_int "208.67.222.255"),
    (IPConverter.ip_to_int "9.9.9.0", IPConverter.ip_to_int "9.9.9.255")] := by decide

/-- The hit result of `GeoIPAnalyzer.analyze`: `meta.copy()` with the
queried address written under `ip`. -/
def geoHit (m : GeoMeta) (ip : String) : GeoDict :=
  { ip := some (PyVal.vstr ip),
    country := some (PyVal.vstr m.country),
    country_code := some (PyVal.vstr m.country_code),
    region := some (PyVal.vstr m.region),
    city := some (PyVal.vstr m.city),
    latitude := some (PyVal.vfloat m.latitude),
    longitude := some (PyVal.vfloat m.longitude),
    timezone := some (PyVal.vstr m.timezone),
    isp := some (PyVal.vstr m.isp),
    organization := some (PyVal.vstr m.organization),
    asn := some (PyVal.vint m.asn) }

/-- The not-found result of `GeoIPAnalyzer.analyze`. -/
def geoMiss (ip : String) : GeoDict :=
  { ip := some (PyVal.vstr ip),
    country := some (PyVal.vstr "Unknown"),
    country_code := some PyVal.vnone,
    region := some PyVal.vnone,
    city := some PyVal.vnone,
    latitude := some PyVal.vnone,
    longitude := some PyVal.vnone,
    timezone := some PyVal.vnone,
    isp := some (PyVal.vstr "Unknown"),
    organization := some PyVal.vnone,
    asn := some PyVal.vnone }

/-- The invalid-address result of `GeoIPAnalyzer.analyze`. -/
def geoErr (ip : String) : GeoDict :=
  { ip := some (PyVal.vstr ip),
    country := some (PyVal.vstr "Unknown"),
    country_code := some PyVal.vnone,
    error := some (PyVal.vstr "Invalid IP address") }

/-- The linear database scan of `GeoIPAnalyzer.analyze`: first entry, in
insertion order, whose inclusive range contains the address. -/
def geoFind (db : List (Nat × Nat × GeoMeta)) (n : Nat) : Option GeoMeta :=
  match db with
  | [] => none
  | (s, e, m) :: t => if s ≤ n ∧ n ≤ e then some m else geoFind t n

/-- Model of `GeoIPAnalyzer.analyze`: cache check (a hit returns a value
copy of the cached dict), parse, first containing entry, with the error and
not-found dictionaries; every computed result is stored in the cache.  On
a miss the source returns the very object it cached, which matters only
when `analyze_with_distance` later mutates it. -/
def GeoIPAnalyzer.analyze (db : List (Nat × Nat × GeoMeta))
    (cache : List (String × GeoDict)) (ip_address : String) :
    GeoDict × List (String × GeoDict) :=
  match pyDictGet cache ip_address with
  | some r => (r, cache)
  | none =>
    match IPConverter.ip_to_int ip_address with
    | none => (geoErr ip_address, pyDictSet cache ip_address (geoErr ip_address))
    | some ip_int =>
      match geoFind db ip_int with
      | some m => (geoHit m ip_address, pyDictSet cache ip_address (geoHit m ip_address))
      | none => (geoMiss ip_address, pyDictSet cache ip_address (geoMiss ip_address))

/-- Model of `GeoIPAnalyzer.analyze_with_distance`.  `calculate_distance`
is floating-point haversine arithmetic, kept abstract as the parameter
`dist`.  The two extra keys are assigned onto the dict object returned by
`analyze`; when that call was a cache miss the same object sits in the
cache, so the cached entry mutates with it, which the final `pyDictSet`
reproduces. -/
def GeoIPAnalyzer.analyze_with_distance (db : List (Nat × Nat × GeoMeta))
    (dist : GeoDict → GeoDict → PyVal) (cache : List (String × GeoDict))
    (ip_address reference_ip : String) : GeoDict × List (String × GeoDict) :=
  let hit := (pyDictGet cache ip_address).isSome
  let r1 := GeoIPAnalyzer.analyze db cache ip_address
  let r2 := GeoIPAnalyzer.analyze db r1.2 reference_ip
  let d := dist r1.1 r2.1
  let result := { r1.1 with
                  distance_to_reference := some d,
                  reference_ip := some (PyVal.vstr reference_ip) }
  (result, if hit then r2.2 else pyDictSet r2.2 ip_address result)

/-- Cache-free reference semantics of a single GeoIP lookup, following the
specification sentence that the cache must be a pure optimization: the same
parse and first-containing-entry logic with no cache anywhere. -/
def specGeoNoCache (db : List (Nat × Nat × GeoMeta)) (ip_address : String) : GeoDict :=
  match IPConverter.ip_to_int ip_address with
  | none => geoErr ip_address
  | some n =>
    match geoFind db n with
    | some m => geoHit m ip_address
    | none => geoMiss ip_address

example : (GeoIPAnalyzer.analyze GeoIPAnalyzer.sampleDB [] "8.8.8.8").1.city =
    some (PyVal.vstr "Mountain View") := by decide
example : (GeoIPAnalyzer.analyze GeoIPAnalyzer.sampleDB [] "1.1.1.130").1.city =
    some (PyVal.vstr "Sydney") := by decide
example : (GeoIPAnalyzer.analyze GeoIPAnalyzer.sampleDB [] "5.5.5.5").1 =
    geoMiss "5.5.5.5" := by decide
example : (GeoIPAnalyzer.analyze GeoIPAnalyzer.sampleDB [] "not-an-ip").1 =
    geoErr "not-an-ip" := by decide

/-! ### BGP analyzer -/

/-- Halving recursion for `bitLength`, with enough fuel to reach zero. -/
def bitLengthAux : Nat → Nat → Nat
  | 0, _ => 0
  | fuel + 1, n => if n = 0 then 0 else bitLengthAux fuel (n / 2) + 1

/-- Python `int.bit_length()` for nonnegative integers: the number of
binary digits, with `bitLength 0 = 0`. -/
def bitLength (n : Nat) : Nat := bitLengthAux n n

example : bitLength 0 = 0 := by decide
example : bitLength 255 = 8 := by decide
example : bitLength 256 = 9 := by decide
example : bitLength 65535 = 16 := by decide

/-- One `(start_int, end_int, asn, as_name, origin, community)` tuple of the
BGP prefix table.  The second tuple component is called `end` in the
source loops; `stop` avoids the reserved word. -/
structure BGPEntry where
  start : Nat
  stop : Nat
  asn : Nat
  as_name : String
  origin : String
  community : String
deriving DecidableEq, Repr

/-- The table `BGPAnalyzer._SAMPLE_PREFIXES` (`bgp_analyzer.py`), bounds evaluated
from the module-level `ip_to_int` calls and rechecked below. -/
def BGPAnalyzer.samplePrefixes : List BGPEntry := [
  { start := 134744064, stop := 134744319, asn := 15169, as_name := "GOOGLE",
    origin := "IGP", community := "google:65000" },
  { start := 134743040, stop := 134743295, asn := 15169, as_name := "GOOGLE",
    origin := "IGP", community := "google:65000" },
  { start := 16843008, stop := 16843263, asn := 13335, as_name := "CLOUDFLARE",
    origin := "IGP", community := "cloudflare:1" },
  { start := 16777216, stop := 16777471, asn := 13335, as_name := "CLOUDFLARE",
    origin := "IGP", community := "cloudflare:1" },
  { start := 3494108672, stop := 3494108927, asn := 8452, as_name := "OPENDNS",
    origin := "IGP", community := "opendns:65000" },
  { start := 3494108160, stop := 3494108415, asn := 8452, as_name := "OPENDNS",
    origin := "IGP", community := "opendns:65000" },
  { start := 151587072, stop := 151587327, asn := 22652, as_name := "QUAD9",
    origin := "IGP", community := "quad9:65000" },
  { start := 3522428928, stop := 3522429183, asn := 1, as_name := "LEVEL3",
    origin := "IGP", community := "level3:65001" },
  { start := 67108864, stop := 67109119, asn := 701, as_name := "VERIZON",
    origin := "IGP", community := "verizon:65001" }]

example : BGPAnalyzer.samplePrefixes.map (fun e => (some e.start, some e.stop)) = [
    (IPConverter.ip_to_int "8.8.8.0", IPConverter.ip_to_int "8.8.8.255"),
    (IPConverter.ip_to_int "8.8.4.0", IPConverter.ip_to_int "8.8.4.255"),
    (IPConverter.ip_to_int "1.1.1.0", IPConverter.ip_to_int "1.1.1.255"),
    (IPConverter.ip_to_int "1.0.0.0", IPConverter.ip_to_int "1.0.0.255"),
    (IPConverter.ip_to_int "208.67.222.0", IPConverter.ip_to_int "208.67.222.255"),
    (IPConverter.ip_to_int "208.67.220.0", IPConverter.ip_to_int "208.67.220.255"),
    (IPConverter.ip_to_int "9.9.9.0", IPConverter.ip_to_int "9.9.9.255"),
    (IPConverter.ip_to_int "209.244.0.0", IPConverter.ip_to_int "209.244.0.255"),
    (IPConverter.ip_to_int "4.0.0.0", IPConverter.ip_to_int "4.0.0.255")] := by decide

/-- One record of `BGPAnalyzer._AS_INFO_DB`. -/
structure ASInfo where
  name : String
  country : String
  description : String
deriving DecidableEq, Repr

/-- The table `BGPAnalyzer._AS_INFO_DB` (`bgp_analyzer.py`). -/
def BGPAnalyzer.asInfoDB : List (Nat × ASInfo) := [
  (15169, { name := "GOOGLE", country := "US", description := "Google Inc." }),
  (13335, { name := "CLOUDFLARE", country := "US", description := "Cloudflare Inc." }),
  (8452, { name := "OPENDNS", country := "US", description := "Cisco Umbrella" }),
  (22652, { name := "QUAD9", country := "US", description := "Quad9 Foundation" }),
  (1, { name := "LEVEL3", country := "US", description := "Level 3 Communications" }),
  (701, { name := "VERIZON", country := "US", description := "Verizon Communications" }),
  (3356, { name := "LEASEWEB", country := "NL", description := "LeaseWeb Global B.V." }),
  (2906, { name := "NETFLIX", country := "US", description := "Netflix Inc." }),
  (16509, { name := "AMAZON", country := "US", description := "Amazon.com Inc." })]

/-- A BGP result dictionary, one optional slot per key any code path of
`analyze_ip` can produce; `route_pfx` stands for the source key
`route_prefix`. -/
structure BGPDict where
  ip : Option PyVal := none
  asn : Option PyVal := none
  as_name : Option PyVal := none
  route_pfx : Option PyVal := none
  origin : Option PyVal := none
  community : Option PyVal := none
  path : Option PyVal := none
  country : Option PyVal := none
  error : Option PyVal := none
  last_update : Option PyVal := none
deriving DecidableEq, Repr

/-- The match loop of `BGPAnalyzer.analyze_ip`: scan the table, keeping the
entry whose `(end - start).bit_length()` is strictly larger than that of
the current best (the source keeps `best_prefix_len`, initialized to `-1`,
which always equals the bit length of the kept width, so the first
containing entry always replaces the empty state). -/
def bgpBest (table : List BGPEntry) (n : Nat) : Option BGPEntry :=
  table.foldl (fun best e =>
    if e.start ≤ n ∧ n ≤ e.stop then
      match best with
      | none => some e
      | some b => if bitLength (b.stop - b.start) < bitLength (e.stop - e.start)
          then some e else some b
    else best) none

/-- The invalid-address result of `BGPAnalyzer.analyze_ip`. -/
def bgpErr (ip : String) : BGPDict :=
  { ip := some (PyVal.vstr ip),
    asn := some PyVal.vnone,
    as_name := some PyVal.vnone,
    route_pfx := some PyVal.vnone,
    origin := some PyVal.vnone,
    community := some PyVal.vnone,
    path := some (PyVal.vintList []),
    country := some PyVal.vnone,
    error := some (PyVal.vstr "Invalid IP address") }

/-- The no-match result of `BGPAnalyzer.analyze_ip`. -/
def bgpMiss (ip : String) : BGPDict :=
  { ip := some (PyVal.vstr ip),
    asn := some PyVal.vnone,
    as_name := some (PyVal.vstr "Unknown"),
    route_pfx := some PyVal.vnone,
    origin := some PyVal.vnone,
    community := some PyVal.vnone,
    path := some (PyVal.vintList []),
    country := some PyVal.vnone,
    last_update := some (PyVal.vstr "N/A") }

/-- The matched result of `BGPAnalyzer.analyze_ip`: the route prefix is
rendered as `start_ip/(32 - width.bit_length())`, and the AS country comes
from `as_info_db.get(asn, ...)`. -/
def bgpHit (asdb : List (Nat × ASInfo)) (e : BGPEntry) (ip : String) : BGPDict :=
  { ip := some (PyVal.vstr ip),
    asn := some (PyVal.vint e.asn),
    as_name := some (PyVal.vstr e.as_name),
    route_pfx := some (PyVal.vstr (IPConverter.int_to_ip e.start ++ "/" ++
      toString ((32 : Int) - bitLength (e.stop - e.start)))),
    origin := some (PyVal.vstr e.origin),
    community := some (PyVal.vstr e.community),
    path := some (PyVal.vintList [(e.asn : Int)]),
    country := match pyDictGet asdb e.asn with
      | some i => some (PyVal.vstr i.country)
      | none => some PyVal.vnone,
    last_update := some (PyVal.vstr "N/A") }

/-- Model of `BGPAnalyzer.analyze_ip` (`bgp_analyzer.py`): cache check
(a hit returns a value copy), parse, the `bgpBest` table scan, and caching
of every produced result. -/
def BGPAnalyzer.analyze_ip (table : List BGPEntry) (asdb : List (Nat × ASInfo))
    (cache : List (String × BGPDict)) (ip_address : String) :
    BGPDict × List (String × BGPDict) :=
  match pyDictGet cache ip_address with
  | some r => (r, cache)
  | none =>
    match IPConverter.ip_to_int ip_address with
    | none => (bgpErr ip_address, pyDictSet cache ip_address (bgpErr ip_address))
    | some ip_int =>
      match bgpBest table ip_int with
      | some e => (bgpHit asdb e ip_address,
          pyDictSet cache ip_address (bgpHit asdb e ip_address))
      | none => (bgpMiss ip_address, pyDictSet cache ip_address (bgpMiss ip_address))

/-- Model of `BGPAnalyzer.get_prefixes_for_asn`: one rendered
`start_ip/(32 - width.bit_length())` string per table entry whose ASN
matches, in table order. -/
def BGPAnalyzer.get_prefixes_for_asn (table : List BGPEntry) (asn : Nat) : List String :=
  (table.filter (fun e => e.asn = asn)).map (fun e =>
    IPConverter.int_to_ip e.start ++ "/" ++
      toString ((32 : Int) - bitLength (e.stop - e.start)))

example : (BGPAnalyzer.analyze_ip BGPAnalyzer.samplePrefixes BGPAnalyzer.asInfoDB
    [] "8.8.8.8").1.asn = some (PyVal.vint 15169) := by decide
example : (BGPAnalyzer.analyze_ip BGPAnalyzer.samplePrefixes BGPAnalyzer.asInfoDB
    [] "8.8.8.8").1.route_pfx = some (PyVal.vstr "8.8.8.0/24") := by decide
example : (BGPAnalyzer.analyze_ip BGPAnalyzer.samplePrefixes BGPAnalyzer.asInfoDB
    [] "3.3.3.3").1 = bgpMiss "3.3.3.3" := by decide
example : BGPAnalyzer.get_prefixes_for_asn BGPAnalyzer.samplePrefixes 15169 =
    ["8.8.8.0/24", "8.8.4.0/24"] := by decide

/-! ### Spec-side definitions used to state the claims -/

/-- Spec-side shape predicate, following the claim wording: the text
consists of four dot-separated decimal octets, each with value in
`[0, 255]`. -/
def specFourOctets (s : String) : Bool :=
  (splitOnC '.' s.data).length = 4 &&
  (splitOnC '.' s.data).all (fun p => !p.isEmpty && p.all isDigitC && foldDecC p ≤ 255)

/-- The canonical restriction of `specFourOctets`: octets carry no leading
zero (an octet is `0` itself or starts with a nonzero digit). -/
def specFourOctetsNoLZ (s : String) : Bool :=
  specFourOctets s &&
  (splitOnC '.' s.data).all (fun p => !(p.head? == some '0') || p == ['0'])

/-- The 32-bit value the claim assigns to a four-octet string (garbage on
other shapes, used only under `specFourOctets`). -/
def specQuadVal (s : String) : Nat :=
  match splitOnC '.' s.data with
  | [a, b, c, d] =>
    foldDecC a * 16777216 + foldDecC b * 65536 + foldDecC c * 256 + foldDecC d
  | _ => 0

example : specFourOctets "8.8.8.8" = true := by decide
example : specFourOctets "127.1" = false := by decide
example : specFourOctetsNoLZ "010.0.0.1" = false := by decide
example : specQuadVal "8.8.8.8" = 134744072 := by decide

/-- Spec-side largest aligned block: the biggest `k <= 32` with `start`
aligned to `2^k` and the block of `2^k` addresses not passing `stop`
(`k = 0` always qualifies). -/
def largestBlock (s e : Nat) : Nat :=
  ((List.range 33).reverse.find? (fun k => s % 2 ^ k = 0 && s + 2 ^ k - 1 ≤ e)).getD 0

/-- Spec-side power-of-two range decomposition from the claim wording:
repeatedly take the largest block aligned at `start` that does not exceed
`end`, emitting `(block_start, prefix_length)` pairs.  The fuel bounds the
number of emitted blocks; 64 is enough for any 32-bit range. -/
def specCidrDecompAux : Nat → Nat → Nat → List (Nat × Nat)
  | 0, _, _ => []
  | fuel + 1, s, e =>
    if s ≤ e then
      let k := largestBlock s e
      (s, 32 - k) :: specCidrDecompAux fuel (s + 2 ^ k) e
    else []

/-- Spec-side decomposition of one inclusive range into minimal CIDR
blocks. -/
def specCidrDecomp (s e : Nat) : List (Nat × Nat) := specCidrDecompAux 64 s e

/-- Spec-side coalescing of an ordered list of ranges: merge adjacent
contiguous ranges. -/
def specMergeRanges : List (Nat × Nat) → List (Nat × Nat)
  | [] => []
  | (s, e) :: t =>
    match specMergeRanges t with
    | [] => [(s, e)]
    | (s2, e2) :: t2 => if e + 1 = s2 then (s, e2) :: t2 else (s, e) :: (s2, e2) :: t2

/-- Spec-side `entriesFor` from the claim wording: the matching entries,
coalesced into minimal CIDR blocks exactly covering their union, rendered
like the source renders prefixes. -/
def specEntriesFor (table : List BGPEntry) (asn : Nat) : List String :=
  (specMergeRanges ((table.filter (fun e => e.asn = asn)).map
      (fun e => (e.start, e.stop)))).flatMap
    (fun r => (specCidrDecomp r.1 r.2).map
      (fun b => IPConverter.int_to_ip b.1 ++ "/" ++ toString b.2))

example : specCidrDecomp 0 255 = [(0, 24)] := by decide
example : specCidrDecomp 0 2 = [(0, 31), (2, 32)] := by decide
example : specEntriesFor
    [{ start := 0, stop := 127, asn := 9, as_name := "A",
       origin := "IGP", community := "x" },
     { start := 128, stop := 255, asn := 9, as_name := "A",
       origin := "IGP", community := "x" }] 9 = ["0.0.0.0/24"] := by decide

/-- First-match characterization of the GeoIP database scan: if entry `j`
contains the address and no earlier entry does, the scan returns the
metadata of entry `j`. -/
theorem geoFind_first (db : List (Nat × Nat × GeoMeta)) (n : Nat) (j : Nat)
    (hj : j < db.length)
    (hcont : (db.get ⟨j, hj⟩).1 ≤ n ∧ n ≤ (db.get ⟨j, hj⟩).2.1)
    (hprev : ∀ i, ∀ hi : i < db.length, i < j →
      ¬ ((db.get ⟨i, hi⟩).1 ≤ n ∧ n ≤ (db.get ⟨i, hi⟩).2.1)) :
    geoFind db n = some (db.get ⟨j, hj⟩).2.2 := by
  induction db generalizing j with
  | nil => exact absurd hj (by simp)
  | cons hd tl ih =>
    obtain ⟨s, e, m⟩ := hd
    cases j with
    | zero =>
      simp only [List.get] at hcont ⊢
      simp [geoFind, hcont.1, hcont.2]
    | succ j2 =>
      have h0 : ¬ (s ≤ n ∧ n ≤ e) := by
        have := hprev 0 (by simp) (by omega)
        simpa using this
      have hj2 : j2 < tl.length := by simpa using hj
      have hcont2 : (tl.get ⟨j2, hj2⟩).1 ≤ n ∧ n ≤ (tl.get ⟨j2, hj2⟩).2.1 := by
        simpa using hcont
      have hprev2 : ∀ i, ∀ hi : i < tl.length, i < j2 →
          ¬ ((tl.get ⟨i, hi⟩).1 ≤ n ∧ n ≤ (tl.get ⟨i, hi⟩).2.1) := by
        intro i hi hij
        have := hprev (i + 1) (by simpa using hi) (by omega)
        simpa using this
      have htail := ih j2 hj2 hcont2 hprev2
      simp only [geoFind, if_neg h0]
      simpa using htail

/-! ### Parsing canonical four-octet strings -/

/-- Interleave the separator back between split parts. -/
def joinSepC (sep : Char) : List (List Char) → List Char
  | [] => []
  | [p] => p
  | p :: ps => p ++ sep :: joinSepC sep ps

theorem splitOnC_ne_nil (sep : Char) (l : List Char) : splitOnC sep l ≠ [] := by
  cases l with
  | nil => simp [splitOnC]
  | cons c cs =>
    by_cases hc : c = sep
    · simp [splitOnC, hc]
    · simp only [splitOnC, if_neg hc]
      cases splitOnC sep cs with
      | nil => simp
      | cons r rs => simp

theorem splitOnC_join (sep : Char) (l : List Char) :
    joinSepC sep (splitOnC sep l) = l := by
  induction l with
  | nil => rfl
  | cons c cs ih =>
    by_cases hc : c = sep
    · simp only [splitOnC, if_pos hc]
      have hne := splitOnC_ne_nil sep cs
      cases hsp : splitOnC sep cs with
      | nil => exact absurd hsp hne
      | cons r rs =>
        rw [hsp] at ih
        simp [joinSepC, ih, hc]
    · simp only [splitOnC, if_neg hc]
      have hne := splitOnC_ne_nil sep cs
      cases hsp : splitOnC sep cs with
      | nil => exact absurd hsp hne
      | cons r rs =>
        rw [hsp] at ih
        cases rs with
        | nil =>
          simp only [joinSepC] at ih ⊢
          rw [ih]
        | cons r2 rs2 =>
          simp only [joinSepC] at ih ⊢
          simp [← ih]

/-- The conditions under which one split part parses as a plain decimal
number: nonempty, all digits, and no leading zero. -/
def octetOk (p : List Char) : Prop :=
  p ≠ [] ∧ (∀ c ∈ p, isDigitC c = true) ∧ (p.head? = some '0' → p = ['0'])

theorem strtoul0_octet (ds rest : List Char) (hok : octetOk ds)
    (hr : ∀ c, rest.head? = some c → c = '.') :
    strtoul0 (ds ++ rest) = some (foldDecC ds, rest) := by
  obtain ⟨hne, hd, hz⟩ := hok
  by_cases h0 : ds.head? = some '0'
  · rw [hz h0]
    have hfold : foldDecC ['0'] = 0 := by decide
    rw [hfold]
    cases rest with
    | nil => rfl
    | cons c2 rest2 =>
      have hc2 : c2 = '.' := hr c2 rfl
      subst hc2
      have hspan : spanC isOctC ('.' :: rest2) = ([], '.' :: rest2) := by
        simp [spanC, isOctC]
      simp [strtoul0, hspan, foldOctC]
  · exact strtoul0_digits ds rest hne hd h0
      (fun c h => by rw [hr c h]; decide)

theorem inetAtonCore_parts (a b c d : List Char)
    (ha : octetOk a) (hb : octetOk b) (hc : octetOk c) (hd : octetOk d)
    (hva : foldDecC a ≤ 255) (hvb : foldDecC b ≤ 255)
    (hvc : foldDecC c ≤ 255) (hvd : foldDecC d ≤ 255) :
    inetAtonCore (a ++ '.' :: (b ++ '.' :: (c ++ '.' :: d))) =
      some (foldDecC a * 16777216 + foldDecC b * 65536 + foldDecC c * 256 + foldDecC d) := by
  have s1 := strtoul0_octet a ('.' :: (b ++ '.' :: (c ++ '.' :: d))) ha (dotHead _)
  have s2 := strtoul0_octet b ('.' :: (c ++ '.' :: d)) hb (dotHead _)
  have s3 := strtoul0_octet c ('.' :: d) hc (dotHead _)
  have s4 := strtoul0_octet d [] hd (by intro x h; simp at h)
  have e4 : d ++ ([] : List Char) = d := by simp
  rw [e4] at s4
  simp only [inetAtonCore, s1, s2, s3, s4]
  have n1 : ¬ (255 < foldDecC a) := by omega
  have n2 : ¬ (255 < foldDecC b) := by omega
  have n3 : ¬ (255 < foldDecC c) := by omega
  simp [n1, n2, n3, inetRestOk, hvd]

theorem ip_to_int_of_canonical (s : String) (h : specFourOctetsNoLZ s = true) :
    IPConverter.ip_to_int s = some (specQuadVal s) := by
  unfold specFourOctetsNoLZ specFourOctets at h
  simp only [Bool.and_eq_true, List.all_eq_true, decide_eq_true_eq] at h
  obtain ⟨⟨hlen, hparts⟩, hnolz⟩ := h
  rcases hsp : splitOnC '.' s.data with _ | ⟨a, _ | ⟨b, _ | ⟨c, _ | ⟨d, _ | ⟨x, xs⟩⟩⟩⟩⟩ <;>
    rw [hsp] at hlen <;> simp at hlen
  rw [hsp] at hparts hnolz
  have hok : ∀ p ∈ [a, b, c, d], octetOk p ∧ foldDecC p ≤ 255 := by
    intro p hp
    have h1 := hparts p hp
    have h2 := hnolz p hp
    simp only [Bool.and_eq_true, Bool.not_eq_true', List.isEmpty_eq_false,
      List.all_eq_true, decide_eq_true_eq] at h1
    obtain ⟨⟨hne, hdig⟩, hval⟩ := h1
    refine ⟨⟨hne, hdig, ?_⟩, hval⟩
    intro hhead
    simp only [Bool.or_eq_true, Bool.not_eq_true', beq_eq_false_iff_ne, ne_eq,
      beq_iff_eq] at h2
    rcases h2 with h2 | h2
    · exact absurd hhead h2
    · exact h2
  have hj := splitOnC_join '.' s.data
  rw [hsp] at hj
  have hdata : s.data = a ++ '.' :: (b ++ '.' :: (c ++ '.' :: d)) := by
    rw [← hj]
    rfl
  have hnul : ¬ (Char.ofNat 0 ∈ s.data) := by
    rw [hdata]
    intro hmem
    have hdig0 : isDigitC (Char.ofNat 0) = false := by decide
    have hdot0 : ¬ (Char.ofNat 0 = '.') := by decide
    simp only [List.mem_append, List.mem_cons] at hmem
    rcases hmem with hm | hm | hm | hm | hm | hm | hm
    · exact absurd ((hok a (by simp)).1.2.1 _ hm) (by simp [hdig0])
    · exact hdot0 hm
    · exact absurd ((hok b (by simp)).1.2.1 _ hm) (by simp [hdig0])
    · exact hdot0 hm
    · exact absurd ((hok c (by simp)).1.2.1 _ hm) (by simp [hdig0])
    · exact hdot0 hm
    · exact absurd ((hok d (by simp)).1.2.1 _ hm) (by simp [hdig0])
  show (if Char.ofNat 0 ∈ s.data then none else inetAtonCore s.data) = some (specQuadVal s)
  rw [if_neg hnul, hdata,
    inetAtonCore_parts a b c d (hok a (by simp)).1 (hok b (by simp)).1
      (hok c (by simp)).1 (hok d (by simp)).1 (hok a (by simp)).2 (hok b (by simp)).2
      (hok c (by simp)).2 (hok d (by simp)).2]
  unfold specQuadVal
  rw [hsp]

/-! ### Re-parsing rendered CIDR strings -/

theorem splitOnC_no_sep (sep : Char) (l : List Char) (h : sep ∉ l) :
    splitOnC sep l = [l] := by
  induction l with
  | nil => rfl
  | cons c cs ih =>
    have hc : ¬ (c = sep) := fun he => h (by simp [he])
    have ht := ih (fun hm => h (by simp [hm]))
    simp [splitOnC, hc, ht]

theorem splitOnC_append_sep (sep : Char) (x y : List Char) (hx : sep ∉ x) :
    splitOnC sep (x ++ sep :: y) = x :: splitOnC sep y := by
  induction x with
  | nil => simp [splitOnC]
  | cons c cs ih =>
    have hc : ¬ (c = sep) := fun he => hx (by simp [he])
    have ht := ih (fun hm => hx (by simp [hm]))
    show splitOnC sep (c :: (cs ++ sep :: y)) = (c :: cs) :: splitOnC sep y
    rw [splitOnC, if_neg hc, ht]

theorem int_to_ip_chars (n : Nat) (c : Char) (hc : c ∈ (IPConverter.int_to_ip n).data) :
    isDigitC c = true ∨ c = '.' := by
  have hdig : ∀ b, b < 256 → ∀ d ∈ byteRepr b, isDigitC d = true := by
    intro b hb d hdb
    have h2 := List.all_eq_true.mp (byteRepr_facts b hb).1 d
    simpa using h2 hdb
  have hb1 : n / 16777216 % 256 < 256 := Nat.mod_lt _ (by norm_num)
  have hb2 : n / 65536 % 256 < 256 := Nat.mod_lt _ (by norm_num)
  have hb3 : n / 256 % 256 < 256 := Nat.mod_lt _ (by norm_num)
  have hb4 : n % 256 < 256 := Nat.mod_lt _ (by norm_num)
  have hdata : (IPConverter.int_to_ip n).data =
      byteRepr (n / 16777216 % 256) ++ '.' ::
        (byteRepr (n / 65536 % 256) ++ '.' ::
          (byteRepr (n / 256 % 256) ++ '.' :: byteRepr (n % 256))) := rfl
  rw [hdata] at hc
  simp only [List.mem_append, List.mem_cons] at hc
  rcases hc with h | h | h | h | h | h | h
  · exact Or.inl (hdig _ hb1 _ h)
  · exact Or.inr h
  · exact Or.inl (hdig _ hb2 _ h)
  · exact Or.inr h
  · exact Or.inl (hdig _ hb3 _ h)
  · exact Or.inr h
  · exact Or.inl (hdig _ hb4 _ h)

/-- Facts about the decimal rendering of a small prefix length: it parses
back with Python `int`, and contains no slash, dot or NUL. -/
theorem pfxRepr_facts : ∀ m : Nat, m ≤ 32 →
    pyInt (toString ((m : Nat) : Int)) = some ((m : Nat) : Int) ∧
    ('/' ∉ (toString ((m : Nat) : Int)).data) ∧
    (Char.ofNat 0 ∉ (toString ((m : Nat) : Int)).data) := by decide

theorem bitLength_two_pow_sub_one : ∀ m, m ≤ 32 → bitLength (2 ^ m - 1) = m := by decide

/-- Re-parsing a rendered `address/prefix` string: for an aligned address
the network is the address itself and `get_ip_range` recovers the exact
block bounds. -/
theorem get_ip_range_render (addr : Nat) (p : Nat) (hp : p ≤ 32)
    (hal : addr % 2 ^ (32 - p) = 0) (haddr : addr + (2 ^ (32 - p) - 1) < 4294967296) :
    CIDRCalculator.get_ip_range
        (IPConverter.int_to_ip addr ++ "/" ++ toString ((p : Nat) : Int)) =
      some (addr, addr + (2 ^ (32 - p) - 1)) := by
  obtain ⟨hpy, hslash, hnul⟩ := pfxRepr_facts p hp
  have haddrlt : addr < 4294967296 := by
    have h1 : 1 ≤ 2 ^ (32 - p) := Nat.one_le_two_pow
    omega
  have hdata : (IPConverter.int_to_ip addr ++ "/" ++ toString ((p : Nat) : Int)).data =
      (IPConverter.int_to_ip addr).data ++ '/' :: (toString ((p : Nat) : Int)).data := by
    simp [String.data_append]
  have hnoslash : '/' ∉ (IPConverter.int_to_ip addr).data := by
    intro hm
    rcases int_to_ip_chars addr _ hm with h | h
    · exact absurd h (by decide)
    · exact absurd h (by decide)
  have hsplit : splitOnC '/' (IPConverter.int_to_ip addr ++ "/" ++
      toString ((p : Nat) : Int)).data =
      [(IPConverter.int_to_ip addr).data, (toString ((p : Nat) : Int)).data] := by
    rw [hdata, splitOnC_append_sep '/' _ _ hnoslash,
      splitOnC_no_sep '/' _ hslash]
  have hparse : CIDRCalculator.parse_cidr (IPConverter.int_to_ip addr ++ "/" ++
      toString ((p : Nat) : Int)) =
      some (IPConverter.int_to_ip (addr &&& pyMask ((p : Nat) : Int)),
        IPConverter.int_to_ip ((addr &&& pyMask ((p : Nat) : Int)) |||
          (4294967295 - pyMask ((p : Nat) : Int))),
        IPConverter.int_to_ip (pyMask ((p : Nat) : Int)), ((p : Nat) : Int)) := by
    have hpy2 : pyInt ⟨(toString ((p : Nat) : Int)).data⟩ = some ((p : Nat) : Int) := hpy
    have hip2 : IPConverter.ip_to_int ⟨(IPConverter.int_to_ip addr).data⟩ = some addr :=
      ip_to_int_int_to_ip addr haddrlt
    have hple : ¬ ((32 : Int) < ((p : Nat) : Int)) := by
      simp only [not_lt]
      exact_mod_cast hp
    simp only [CIDRCalculator.parse_cidr, hsplit, hpy2, if_neg hple, hip2]
  have hmaskv : pyMask ((p : Nat) : Int) = 4294967296 - 2 ^ (32 - p) := pyMask_eq p hp
  have hnet : addr &&& pyMask ((p : Nat) : Int) = addr := by
    rw [hmaskv, and_mask_eq_round addr _ haddrlt (by omega),
      Nat.div_mul_cancel (Nat.dvd_of_mod_eq_zero hal)]
  have hbc : addr ||| (4294967295 - pyMask ((p : Nat) : Int)) =
      addr + (2 ^ (32 - p) - 1) := by
    rw [hmaskv, mask_complement_eq _ (by omega), or_low_bits addr _ hal]
  unfold CIDRCalculator.get_ip_range
  rw [hparse]
  simp only [hnet, hbc, ip_to_int_int_to_ip addr haddrlt, ip_to_int_int_to_ip _ haddr]

/-! ### Claim theorems -/

/-- C8: for every prefix length `p` in `[0, 32]`, the netmask word the
engine computes as `(0xFFFFFFFF << (32 - p)) & 0xFFFFFFFF` equals
`2^32 - 2^(32-p)`, the 32-bit word with exactly `p` leading one-bits and
`32 - p` trailing zero-bits (bit `i` set exactly when `32 - p ≤ i < 32`),
with the boundary cases `mask 0 = 0` (the shift-by-32 case) and
`mask 32 = 0xFFFFFFFF`; the masking arithmetic is exact modulo `2^32`. -/
theorem c8_netmask_word (p : Nat) (hp : p ≤ 32) :
    pyMask (p : Int) = 4294967296 - 2 ^ (32 - p) ∧
    (∀ i, i < 32 → ((pyMask (p : Int)).testBit i = true ↔ 32 - p ≤ i)) ∧
    (∀ i, 32 ≤ i → (pyMask (p : Int)).testBit i = false) ∧
    pyMask ((0 : Nat) : Int) = 0 ∧ pyMask ((32 : Nat) : Int) = 4294967295 := by
  refine ⟨pyMask_eq p hp, ?_, ?_, by decide, by decide⟩
  · intro i hi
    have hdec : ∀ q, q ≤ 32 → ∀ i, i < 32 →
        ((4294967296 - 2 ^ (32 - q)).testBit i = true ↔ 32 - q ≤ i) := by decide
    rw [pyMask_eq p hp]
    exact hdec p hp i hi
  · intro i hi
    apply Nat.testBit_lt_two_pow
    have hlt : pyMask (p : Int) < 4294967296 := by
      unfold pyMask
      exact Nat.mod_lt _ (by norm_num)
    calc pyMask (p : Int) < 4294967296 := hlt
    _ = 2 ^ 32 := by norm_num
    _ ≤ 2 ^ i := Nat.pow_le_pow_right (by norm_num) hi

theorem c8_netmask_word_witness :
    (24 : Nat) ≤ 32 ∧ pyMask ((24 : Nat) : Int) = 4294967296 - 2 ^ (32 - 24) :=
  ⟨by decide, (c8_netmask_word 24 (by decide)).1⟩

/-- C10: `GeoIPAnalyzer.analyze` and `BGPAnalyzer.analyze_ip` are total
(their embeddings are plain functions) and on malformed input, instead of
raising, they produce the dedicated error dictionary carrying an `error`
key with Unknown/None payload fields, and insert it into the cache with
the same dictionary-store operation the success paths use. -/
theorem c10_malformed_total (s : String) (db : List (Nat × Nat × GeoMeta))
    (table : List BGPEntry) (asdb : List (Nat × ASInfo))
    (geoCache : List (String × GeoDict)) (bgpCache : List (String × BGPDict))
    (hg : pyDictGet geoCache s = none) (hb : pyDictGet bgpCache s = none)
    (hbad : IPConverter.ip_to_int s = none) :
    GeoIPAnalyzer.analyze db geoCache s = (geoErr s, pyDictSet geoCache s (geoErr s)) ∧
    (geoErr s).error = some (PyVal.vstr "Invalid IP address") ∧
    (geoErr s).country = some (PyVal.vstr "Unknown") ∧
    (geoErr s).country_code = some PyVal.vnone ∧
    BGPAnalyzer.analyze_ip table asdb bgpCache s =
      (bgpErr s, pyDictSet bgpCache s (bgpErr s)) ∧
    (bgpErr s).error = some (PyVal.vstr "Invalid IP address") ∧
    (bgpErr s).asn = some PyVal.vnone ∧
    (bgpErr s).path = some (PyVal.vintList []) := by
  refine ⟨?_, rfl, rfl, rfl, ?_, rfl, rfl, rfl⟩
  · unfold GeoIPAnalyzer.analyze
    rw [hg, hbad]
  · unfold BGPAnalyzer.analyze_ip
    rw [hb, hbad]

theorem c10_malformed_total_witness :
    pyDictGet ([] : List (String × GeoDict)) "not-an-ip" = none ∧
    pyDictGet ([] : List (String × BGPDict)) "not-an-ip" = none ∧
    IPConverter.ip_to_int "not-an-ip" = none ∧
    GeoIPAnalyzer.analyze GeoIPAnalyzer.sampleDB [] "not-an-ip" =
      (geoErr "not-an-ip", pyDictSet [] "not-an-ip" (geoErr "not-an-ip")) :=
  ⟨by decide, by decide, by decide,
    (c10_malformed_total "not-an-ip" GeoIPAnalyzer.sampleDB BGPAnalyzer.samplePrefixes
      BGPAnalyzer.asInfoDB [] [] (by decide) (by decide) (by decide)).1⟩

/-- C3 counterexample: `"127.1"` is not of the four-octet shape, yet
`IPConverter.ip_to_int` does not raise on it; `inet_aton` accepts the
two-part BSD form and returns `127 * 2^24 + 1`. -/
theorem c3_counterexample :
    specFourOctets "127.1" = false ∧
    IPConverter.ip_to_int "127.1" = some 2130706433 := by decide

/-- C3 (amended): parsing accepts every four-dot-decimal-octet string
without leading zeros and returns the corresponding 32-bit integer, but
the accepted language is a strict superset of that shape: classic
`inet_aton` short forms, hexadecimal parts, and trailing
whitespace-plus-garbage are accepted too, and a leading-zero octet is read
as octal (raising when the octal digits are invalid). -/
theorem c3_parse_superset (s : String) (h : specFourOctetsNoLZ s = true) :
    IPConverter.ip_to_int s = some (specQuadVal s) ∧
    IPConverter.ip_to_int "127.1" = some 2130706433 ∧
    IPConverter.ip_to_int "0x7f.0.0.1" = some 2130706433 ∧
    IPConverter.ip_to_int "010.0.0.1" = some 134217729 ∧
    IPConverter.ip_to_int "1.2.3.4 tail" = some 16909060 ∧
    IPConverter.ip_to_int "08.0.0.1" = none :=
  ⟨ip_to_int_of_canonical s h, by decide, by decide, by decide, by decide, by decide⟩

theorem c3_parse_superset_witness :
    specFourOctetsNoLZ "8.8.8.8" = true ∧
    IPConverter.ip_to_int "8.8.8.8" = some (specQuadVal "8.8.8.8") :=
  ⟨by decide, (c3_parse_superset "8.8.8.8" (by decide)).1⟩

/-- Two-entry prefix table exhibiting the inverted best-match comparison:
a wide range and a strictly narrower range both containing the query. -/
def c1Table : List BGPEntry := [
  { start := 0, stop := 65535, asn := 100, as_name := "WIDE",
    origin := "IGP", community := "w:1" },
  { start := 0, stop := 255, asn := 200, as_name := "NARROW",
    origin := "IGP", community := "n:1" }]

/-- C1 (code bug, evaluated at the failing input): querying `0.0.0.1`
against a table holding a wide `[0, 65535]` entry (ASN 100) and a strictly
narrower `[0, 255]` entry (ASN 200), both containing the address,
`analyze_ip` reports ASN 100 — the widest range — because the comparison
`(end - start).bit_length() > best` prefers the larger bit length, while
the docstring and the claim require the most specific (smallest width)
entry, ASN 200. -/
theorem c1_widest_range_wins :
    IPConverter.ip_to_int "0.0.0.1" = some 1 ∧
    ((c1Table.get ⟨0, by decide⟩).start ≤ 1 ∧ 1 ≤ (c1Table.get ⟨0, by decide⟩).stop) ∧
    ((c1Table.get ⟨1, by decide⟩).start ≤ 1 ∧ 1 ≤ (c1Table.get ⟨1, by decide⟩).stop) ∧
    (c1Table.get ⟨1, by decide⟩).stop - (c1Table.get ⟨1, by decide⟩).start <
      (c1Table.get ⟨0, by decide⟩).stop - (c1Table.get ⟨0, by decide⟩).start ∧
    (BGPAnalyzer.analyze_ip c1Table BGPAnalyzer.asInfoDB [] "0.0.0.1").1.asn =
      some (PyVal.vint 100) ∧
    (BGPAnalyzer.analyze_ip c1Table BGPAnalyzer.asInfoDB [] "0.0.0.1").1.as_name =
      some (PyVal.vstr "WIDE") := by decide

/-- C2 (code bug, evaluated at the failing input): analyzing an uncached
address through `analyze_with_distance` stores the mutated result object in
the cache, so a later plain `analyze` of the same address returns a
dictionary carrying `distance_to_reference` and `reference_ip` keys — not
value-equal to the cache-free computation, for every distance function. -/
theorem c2_cache_corruption (dist : GeoDict → GeoDict → PyVal) :
    ((GeoIPAnalyzer.analyze GeoIPAnalyzer.sampleDB
        (GeoIPAnalyzer.analyze_with_distance GeoIPAnalyzer.sampleDB dist []
          "8.8.8.8" "9.9.9.9").2 "8.8.8.8").1).distance_to_reference =
      some (dist (specGeoNoCache GeoIPAnalyzer.sampleDB "8.8.8.8")
        (specGeoNoCache GeoIPAnalyzer.sampleDB "9.9.9.9")) ∧
    ((GeoIPAnalyzer.analyze GeoIPAnalyzer.sampleDB
        (GeoIPAnalyzer.analyze_with_distance GeoIPAnalyzer.sampleDB dist []
          "8.8.8.8" "9.9.9.9").2 "8.8.8.8").1).reference_ip =
      some (PyVal.vstr "9.9.9.9") ∧
    (specGeoNoCache GeoIPAnalyzer.sampleDB "8.8.8.8").distance_to_reference = none ∧
    (GeoIPAnalyzer.analyze GeoIPAnalyzer.sampleDB
        (GeoIPAnalyzer.analyze_with_distance GeoIPAnalyzer.sampleDB dist []
          "8.8.8.8" "9.9.9.9").2 "8.8.8.8").1 ≠
      specGeoNoCache GeoIPAnalyzer.sampleDB "8.8.8.8" := by
  refine ⟨rfl, rfl, rfl, ?_⟩
  intro h
  have h2 := congrArg GeoDict.distance_to_reference h
  exact Option.noConfusion h2

theorem c2_cache_corruption_witness :
    (GeoIPAnalyzer.analyze GeoIPAnalyzer.sampleDB
        (GeoIPAnalyzer.analyze_with_distance GeoIPAnalyzer.sampleDB
          (fun _ _ => PyVal.vnone) [] "8.8.8.8" "9.9.9.9").2 "8.8.8.8").1 ≠
      specGeoNoCache GeoIPAnalyzer.sampleDB "8.8.8.8" :=
  (c2_cache_corruption (fun _ _ => PyVal.vnone)).2.2.2

/-- C4 counterexample: the sample GeoIP entries are not pairwise disjoint:
the Cloudflare Sydney entry (index 1) strictly contains the Singapore
entry (index 2), and the parsed address `1.1.1.130` lies in both. -/
theorem c4_sample_overlap :
    IPConverter.ip_to_int "1.1.1.130" = some 16843138 ∧
    (GeoIPAnalyzer.sampleDB.get ⟨1, by decide⟩).1 ≤ 16843138 ∧
    16843138 ≤ (GeoIPAnalyzer.sampleDB.get ⟨1, by decide⟩).2.1 ∧
    (GeoIPAnalyzer.sampleDB.get ⟨2, by decide⟩).1 ≤ 16843138 ∧
    16843138 ≤ (GeoIPAnalyzer.sampleDB.get ⟨2, by decide⟩).2.1 ∧
    (GeoIPAnalyzer.sampleDB.get ⟨1, by decide⟩).1 ≤
      (GeoIPAnalyzer.sampleDB.get ⟨2, by decide⟩).1 ∧
    (GeoIPAnalyzer.sampleDB.get ⟨2, by decide⟩).2.1 ≤
      (GeoIPAnalyzer.sampleDB.get ⟨1, by decide⟩).2.1 := by decide

/-- C4 (amended): GeoIP lookup is first-match-in-order over the sample
table, whose entries are not pairwise disjoint (the Sydney entry strictly
contains the Singapore and London sub-ranges, which are therefore
shadowed): for an uncached, parseable address whose first containing entry
sits at index `j`, `analyze` returns that metadata; `8.8.8.8` yields the
Google / Mountain View entry, `1.1.1.130` yields Sydney although the later
Singapore entry also contains it, and an uncovered address yields the
Unknown-fields not-found result rather than an exception. -/
theorem c4_first_match (db : List (Nat × Nat × GeoMeta))
    (cache : List (String × GeoDict)) (ip : String) (n j : Nat)
    (hj : j < db.length)
    (hmiss : pyDictGet cache ip = none)
    (hn : IPConverter.ip_to_int ip = some n)
    (hcont : (db.get ⟨j, hj⟩).1 ≤ n ∧ n ≤ (db.get ⟨j, hj⟩).2.1)
    (hprev : ∀ i, ∀ hi : i < db.length, i < j →
      ¬ ((db.get ⟨i, hi⟩).1 ≤ n ∧ n ≤ (db.get ⟨i, hi⟩).2.1)) :
    (GeoIPAnalyzer.analyze db cache ip).1 = geoHit (db.get ⟨j, hj⟩).2.2 ip ∧
    (GeoIPAnalyzer.analyze GeoIPAnalyzer.sampleDB [] "8.8.8.8").1 =
      geoHit (GeoIPAnalyzer.sampleDB.get ⟨0, by decide⟩).2.2 "8.8.8.8" ∧
    (GeoIPAnalyzer.analyze GeoIPAnalyzer.sampleDB [] "8.8.8.8").1.city =
      some (PyVal.vstr "Mountain View") ∧
    (GeoIPAnalyzer.analyze GeoIPAnalyzer.sampleDB [] "1.1.1.130").1 =
      geoHit (GeoIPAnalyzer.sampleDB.get ⟨1, by decide⟩).2.2 "1.1.1.130" ∧
    (GeoIPAnalyzer.analyze GeoIPAnalyzer.sampleDB [] "5.5.5.5").1 = geoMiss "5.5.5.5" := by
  refine ⟨?_, by decide, by decide, by decide, by decide⟩
  unfold GeoIPAnalyzer.analyze
  rw [hmiss, hn]
  simp [geoFind_first db n j hj hcont hprev]

theorem c4_first_match_witness :
    pyDictGet ([] : List (String × GeoDict)) "8.8.8.8" = none ∧
    IPConverter.ip_to_int "8.8.8.8" = some 134744072 ∧
    (GeoIPAnalyzer.analyze GeoIPAnalyzer.sampleDB [] "8.8.8.8").1 =
      geoHit (GeoIPAnalyzer.sampleDB.get ⟨0, by decide⟩).2.2 "8.8.8.8" :=
  ⟨by decide, by decide,
    (c4_first_match GeoIPAnalyzer.sampleDB [] "8.8.8.8" 134744072 0 (by decide)
      (by decide) (by decide) (by decide)
      (fun i hi hlt => absurd hlt (by omega))).1⟩

/-- Two contiguous same-ASN entries, jointly covering `[0, 255]`. -/
def c5Table : List BGPEntry := [
  { start := 0, stop := 127, asn := 9, as_name := "A", origin := "IGP", community := "x" },
  { start := 128, stop := 255, asn := 9, as_name := "A", origin := "IGP", community := "x" }]

/-- C5 counterexample: two contiguous matching entries are not coalesced:
the code returns one /25 per entry, while the minimal exact cover of the
union `[0, 255]` — the power-of-two decomposition the claim prescribes,
after merging — is the single block `0.0.0.0/24`. -/
theorem c5_counterexample :
    BGPAnalyzer.get_prefixes_for_asn c5Table 9 = ["0.0.0.0/25", "0.0.0.128/25"] ∧
    specEntriesFor c5Table 9 = ["0.0.0.0/24"] ∧
    BGPAnalyzer.get_prefixes_for_asn c5Table 9 ≠ specEntriesFor c5Table 9 := by decide

/-- C5 (amended): `get_prefixes_for_asn` returns, order-preserving, one
rendered block `start/(32 - width.bit_length())` per entry whose ASN
matches, with no coalescing of contiguous entries and no multi-block
decomposition; for a CIDR-aligned entry (start aligned to the block size,
width one less than a power of two) the rendered block re-parses to
exactly the entry range, so the cover is exact per entry only. -/
theorem c5_per_entry_blocks (table : List BGPEntry) (asn : Nat) :
    BGPAnalyzer.get_prefixes_for_asn table asn =
      (table.filter (fun e => e.asn = asn)).map (fun e =>
        IPConverter.int_to_ip e.start ++ "/" ++
          toString ((32 : Int) - bitLength (e.stop - e.start))) ∧
    (∀ e ∈ table, ∀ p : Nat, p ≤ 32 → e.asn = asn →
      e.start % 2 ^ (32 - p) = 0 →
      e.stop = e.start + (2 ^ (32 - p) - 1) →
      e.stop < 4294967296 →
      CIDRCalculator.get_ip_range (IPConverter.int_to_ip e.start ++ "/" ++
          toString ((32 : Int) - bitLength (e.stop - e.start))) =
        some (e.start, e.stop)) := by
  constructor
  · rfl
  · intro e he p hp hasn hal hstop hlt
    have hwidth : e.stop - e.start = 2 ^ (32 - p) - 1 := by
      rw [hstop]
      omega
    have hbl : bitLength (e.stop - e.start) = 32 - p := by
      rw [hwidth]
      exact bitLength_two_pow_sub_one _ (by omega)
    have hcast : ((32 : Int) - bitLength (e.stop - e.start)) = ((p : Nat) : Int) := by
      rw [hbl]
      omega
    rw [hcast, hstop]
    exact get_ip_range_render e.start p hp hal (by omega)

theorem c5_per_entry_blocks_witness :
    BGPAnalyzer.get_prefixes_for_asn BGPAnalyzer.samplePrefixes 15169 =
      ["8.8.8.0/24", "8.8.4.0/24"] ∧
    CIDRCalculator.get_ip_range (IPConverter.int_to_ip
        (BGPAnalyzer.samplePrefixes.get ⟨0, by decide⟩).start ++ "/" ++
        toString ((32 : Int) -
          bitLength ((BGPAnalyzer.samplePrefixes.get ⟨0, by decide⟩).stop -
            (BGPAnalyzer.samplePrefixes.get ⟨0, by decide⟩).start))) =
      some ((BGPAnalyzer.samplePrefixes.get ⟨0, by decide⟩).start,
        (BGPAnalyzer.samplePrefixes.get ⟨0, by decide⟩).stop) :=
  ⟨by decide,
    (c5_per_entry_blocks BGPAnalyzer.samplePrefixes 15169).2
      (BGPAnalyzer.samplePrefixes.get ⟨0, by decide⟩) (by decide) 24 (by decide)
      (by decide) (by decide) (by decide) (by decide)⟩

/-- C9: whenever `analyze_cidr` reports on a CIDR string (with the
nonnegative prefix the data model prescribes), the report satisfies
`total_addresses = 2^(32-p)`, `usable_hosts = total - 2` truncated at zero
(Python `max(0, total - 2)`), the network and broadcast strings bracket
the numeric range, the netmask is the rendered mask word, first/last
usable are network+1 and broadcast-1 when `usable_hosts > 0` and the
network/broadcast strings themselves otherwise; concretely
`192.168.1.0/24` reports network `192.168.1.0`, broadcast
`192.168.1.255`, netmask `255.255.255.0`, prefix 24, 254 usable hosts,
first usable `192.168.1.1` and last usable `192.168.1.254`. -/
theorem c9_analyze_cidr (cidr : String) (r : CIDRAnalysis)
    (h : IPRangeAnalyzer.analyze_cidr cidr = some r) (hp : 0 ≤ r.pfx_length) :
    r.pfx_length ≤ 32 ∧
    r.total_addresses = 2 ^ (32 - r.pfx_length.toNat) ∧
    r.usable_hosts = r.total_addresses - 2 ∧
    (∃ n0 : Nat,
      CIDRCalculator.get_ip_range cidr = some (n0, n0 + (r.total_addresses - 1)) ∧
      r.network_ip = IPConverter.int_to_ip n0 ∧
      r.broadcast_ip = IPConverter.int_to_ip (n0 + (r.total_addresses - 1)) ∧
      r.netmask = IPConverter.int_to_ip (pyMask r.pfx_length) ∧
      (0 < r.usable_hosts →
        r.first_usable = IPConverter.int_to_ip (n0 + 1) ∧
        r.last_usable = IPConverter.int_to_ip (n0 + (r.total_addresses - 2))) ∧
      (r.usable_hosts = 0 →
        r.first_usable = r.network_ip ∧ r.last_usable = r.broadcast_ip)) ∧
    IPRangeAnalyzer.analyze_cidr "192.168.1.0/24" = some
      { cidr := "192.168.1.0/24", network_ip := "192.168.1.0",
        broadcast_ip := "192.168.1.255", netmask := "255.255.255.0",
        pfx_length := 24, total_addresses := 256, usable_hosts := 254,
        ip_class := "Class C", first_usable := "192.168.1.1",
        last_usable := "192.168.1.254" } := by
  unfold IPRangeAnalyzer.analyze_cidr at h
  repeat' split at h
  all_goals simp at h
  rename_i hvalid x1 nw bc nm p hparse x2 s0 e0 hrange x3 cls hclass
  subst h
  dsimp only at hp ⊢
  obtain ⟨hple, n0, hnw, hbc, hnm, hal, hlt, hrange2⟩ :=
    parse_cidr_range cidr nw bc nm p hp hparse
  rw [hrange] at hrange2
  simp only [Option.some.injEq, Prod.mk.injEq] at hrange2
  obtain ⟨hs0, he0⟩ := hrange2
  subst hs0
  subst he0
  have h1 : (1 : Nat) ≤ 2 ^ (32 - p.toNat) := Nat.one_le_two_pow
  refine ⟨hple, by omega, by omega, ⟨s0, ?_, hnw, ?_, hnm, ?_, ?_⟩, by decide⟩
  · rw [show s0 + (s0 + (2 ^ (32 - p.toNat) - 1) - s0 + 1 - 1) =
      s0 + (2 ^ (32 - p.toNat) - 1) from by omega]
    exact hrange
  · rw [show s0 + (s0 + (2 ^ (32 - p.toNat) - 1) - s0 + 1 - 1) =
      s0 + (2 ^ (32 - p.toNat) - 1) from by omega]
    exact hbc
  · intro hu
    have hc2 : 1 < s0 + (2 ^ (32 - p.toNat) - 1) - s0 := by omega
    refine ⟨by rw [if_pos hc2], ?_⟩
    rw [if_pos hc2]
    congr 1
    omega
  · intro hu0
    have hc3 : ¬ (1 < s0 + (2 ^ (32 - p.toNat) - 1) - s0) := by omega
    exact ⟨by rw [if_neg hc3], by rw [if_neg hc3]⟩


/-- The report for the concrete example block, used by the C9 witness. -/
def c9Record : CIDRAnalysis :=
  { cidr := "192.168.1.0/24", network_ip := "192.168.1.0",
    broadcast_ip := "192.168.1.255", netmask := "255.255.255.0",
    pfx_length := 24, total_addresses := 256, usable_hosts := 254,
    ip_class := "Class C", first_usable := "192.168.1.1",
    last_usable := "192.168.1.254" }

theorem c9_analyze_cidr_witness :
    IPRangeAnalyzer.analyze_cidr "192.168.1.0/24" = some c9Record ∧
    0 ≤ c9Record.pfx_length ∧
    c9Record.pfx_length ≤ 32 ∧
    c9Record.total_addresses = 2 ^ (32 - c9Record.pfx_length.toNat) :=
  ⟨by decide, by decide,
    (c9_analyze_cidr "192.168.1.0/24" c9Record (by decide) (by decide)).1,
    (c9_analyze_cidr "192.168.1.0/24" c9Record (by decide) (by decide)).2.1⟩

/-- C6: for a valid CIDR block with nonnegative original prefix and a
requested prefix length at most 32 (prefix lengths are `0..32` in the data
model): if the requested prefix does not exceed the original one the
division returns the input unchanged (no-op policy); otherwise it returns
exactly `2^(new - old)` rendered blocks in ascending address order whose
network addresses step by `2^(32 - new)`, and every emitted block
re-parses to exactly its `step`-sized range, so consecutive blocks tile
the original block contiguously; concretely `192.168.1.0/24` at 26 yields
exactly the four /26 blocks. -/
theorem c6_subnet_division (cidr nw bc nm : String) (op np : Int) (nint : Nat)
    (hv : IPValidator.is_valid_cidr cidr = true)
    (hparse : CIDRCalculator.parse_cidr cidr = some (nw, bc, nm, op))
    (hop : 0 ≤ op) (hnp : np ≤ 32)
    (hn : IPConverter.ip_to_int nw = some nint) :
    (np ≤ op → IPRangeAnalyzer.subnet_division cidr np = some [cidr]) ∧
    (op < np →
      IPRangeAnalyzer.subnet_division cidr np =
        some ((List.range (2 ^ (np - op).toNat)).map (fun i =>
          IPConverter.int_to_ip (nint + i * 2 ^ ((32 : Int) - np).toNat) ++ "/" ++
            toString np)) ∧
      (∀ i : Nat, i < 2 ^ (np - op).toNat →
        CIDRCalculator.get_ip_range
            (IPConverter.int_to_ip (nint + i * 2 ^ ((32 : Int) - np).toNat) ++ "/" ++
              toString np) =
          some (nint + i * 2 ^ ((32 : Int) - np).toNat,
            nint + i * 2 ^ ((32 : Int) - np).toNat + (2 ^ ((32 : Int) - np).toNat - 1)))) ∧
    IPRangeAnalyzer.subnet_division "192.168.1.0/24" 26 =
      some ["192.168.1.0/26", "192.168.1.64/26", "192.168.1.128/26", "192.168.1.192/26"] ∧
    IPRangeAnalyzer.subnet_division "192.168.1.0/24" 24 = some ["192.168.1.0/24"] := by
  refine ⟨?_, ?_, by decide, by decide⟩
  · intro hle
    unfold IPRangeAnalyzer.subnet_division
    simp [hv, hparse, hle]
  · intro hlt
    have hnle : ¬ (np ≤ op) := by omega
    have hgt32 : ¬ ((32 : Int) < np) := by omega
    constructor
    · unfold IPRangeAnalyzer.subnet_division CIDRCalculator.subnets_from_cidr
      simp [hv, hparse, hn, hnle, hgt32]
    · intro i hi
      obtain ⟨hople, n0, hnw0, hbc0, hnm0, hal0, hlt0, hrange0⟩ :=
        parse_cidr_range cidr nw bc nm op hop hparse
      have hn0lt : n0 < 4294967296 := by
        have h1 : (1 : Nat) ≤ 2 ^ (32 - op.toNat) := Nat.one_le_two_pow
        omega
      rw [hnw0, ip_to_int_int_to_ip n0 hn0lt] at hn
      have hnn : n0 = nint := by
        simpa using hn
      subst hnn
      have he1 : ((32 : Int) - np).toNat = 32 - np.toNat := by omega
      have he2 : 32 - op.toNat = ((32 : Int) - op).toNat := by omega
      have hee : 32 - np.toNat ≤ ((32 : Int) - op).toNat := by omega
      rw [he2] at hal0 hlt0
      have hdn : 2 ^ (32 - np.toNat) ∣ n0 :=
        dvd_trans (pow_dvd_pow 2 hee) (Nat.dvd_of_mod_eq_zero hal0)
      have hal : (n0 + i * 2 ^ (32 - np.toNat)) % 2 ^ (32 - np.toNat) = 0 := by
        rw [Nat.add_mul_mod_self_right]
        exact Nat.mod_eq_zero_of_dvd hdn
      have hpow : 2 ^ (np - op).toNat * 2 ^ (32 - np.toNat) =
          2 ^ ((32 : Int) - op).toNat := by
        rw [← pow_add]
        congr 1
        omega
      have hstep : i * 2 ^ (32 - np.toNat) + 2 ^ (32 - np.toNat) ≤
          2 ^ ((32 : Int) - op).toNat := by
        have hii : i + 1 ≤ 2 ^ (np - op).toNat := by omega
        have := Nat.mul_le_mul_right (2 ^ (32 - np.toNat)) hii
        rw [hpow] at this
        calc i * 2 ^ (32 - np.toNat) + 2 ^ (32 - np.toNat)
            = (i + 1) * 2 ^ (32 - np.toNat) := by ring
        _ ≤ 2 ^ ((32 : Int) - op).toNat := this
      have hbound : n0 + i * 2 ^ (32 - np.toNat) + (2 ^ (32 - np.toNat) - 1) <
          4294967296 := by
        have h1 : (1 : Nat) ≤ 2 ^ (32 - np.toNat) := Nat.one_le_two_pow
        omega
      have hnpc : ((np.toNat : Nat) : Int) = np := Int.toNat_of_nonneg (by omega)
      rw [he1, ← hnpc]
      exact get_ip_range_render (n0 + i * 2 ^ (32 - np.toNat)) np.toNat (by omega) hal hbound

theorem c6_subnet_division_witness :
    IPValidator.is_valid_cidr "192.168.1.0/24" = true ∧
    IPRangeAnalyzer.subnet_division "192.168.1.0/24" 26 =
      some ((List.range (2 ^ ((26 : Int) - 24).toNat)).map (fun i =>
        IPConverter.int_to_ip (3232235776 + i * 2 ^ ((32 : Int) - 26).toNat) ++ "/" ++
          toString (26 : Int))) :=
  ⟨by decide,
    ((c6_subnet_division "192.168.1.0/24" "192.168.1.0" "192.168.1.255" "255.255.255.0"
      24 26 3232235776 (by decide) (by decide) (by decide) (by decide) (by decide)).2.1
      (by decide)).1⟩

theorem foldl_min_nonneg (l : List (Nat × Int)) (a : Int) (ha : 0 ≤ a)
    (hl : ∀ q ∈ l, 0 ≤ q.2) : 0 ≤ l.foldl (fun m q => min m q.2) a := by
  induction l generalizing a with
  | nil => simpa using ha
  | cons x t ih =>
    simp only [List.foldl_cons]
    exact ih (min a x.2) (le_min ha (hl x (by simp))) (fun q hq => hl q (by simp [hq]))

theorem supernetAllMatch_zero (ips : List Nat) (ip0 : Nat) :
    supernetAllMatch ips ip0 0 = true := by
  unfold supernetAllMatch
  rw [List.all_eq_true]
  intro x hx
  have hm2 : pyMask ((0 : Nat) : Int) = 0 := by decide
  simp only [hm2, Nat.and_zero, beq_self_eq_true]

theorem supernetLoop_best (ips : List Nat) (ip0 : Nat) (M : Nat) :
    ∃ p : Nat, p ≤ M ∧ supernetAllMatch ips ip0 p = true ∧
      (∀ q : Nat, q ≤ M → supernetAllMatch ips ip0 q = true → q ≤ p) ∧
      supernetLoop ips ip0 M =
        IPConverter.int_to_ip (ip0 &&& pyMask (p : Int)) ++ "/" ++ toString p := by
  have hzero : supernetAllMatch ips ip0 0 = true := supernetAllMatch_zero _ _
  have hmatch := Nat.findGreatest_spec (P := fun q => supernetAllMatch ips ip0 q = true)
    (Nat.zero_le M) hzero
  have hle := Nat.findGreatest_le (P := fun q => supernetAllMatch ips ip0 q = true) M
  have hmax : ∀ q, Nat.findGreatest (fun q => supernetAllMatch ips ip0 q = true) M < q →
      q ≤ M → supernetAllMatch ips ip0 q = false := by
    intro q h1 h2
    have h3 := Nat.findGreatest_is_greatest h1 h2
    simpa using h3
  refine ⟨Nat.findGreatest (fun q => supernetAllMatch ips ip0 q = true) M,
    hle, hmatch, ?_, supernetLoop_max ips ip0 M _ hle hmatch hmax⟩
  intro q hq hqm
  by_contra hgt
  push_neg at hgt
  have hfalse := hmax q hgt hq
  rw [hqm] at hfalse
  exact absurd hfalse (by simp)

theorem c7_concrete_pair :
    IPRangeAnalyzer.supernet ["192.168.0.0/24", "192.168.1.0/24"] =
      Except.ok "192.168.0.0/23" := rfl

set_option maxHeartbeats 1000000 in
/-- C7: `supernet` raises the empty-input error on zero blocks, returns a
single input unchanged, and for two or more parseable inputs with
nonnegative prefixes returns the first network masked at `p` joined with
`p`, where `p` is the largest prefix length not exceeding the minimum
input prefix at which all input networks agree under the mask; concretely
the two adjacent /24 blocks supernet to `192.168.0.0/23`. -/
theorem c7_supernet (cidrs : List String) (ipps : List (Nat × Int)) (ip0 : Nat)
    (p0 : Int) (rest : List (Nat × Int))
    (hlen : 2 ≤ cidrs.length)
    (hparse : supernetParse cidrs = some ipps)
    (hshape : ipps = (ip0, p0) :: rest)
    (hpos : ∀ q ∈ ipps, 0 ≤ q.2) :
    IPRangeAnalyzer.supernet [] = Except.error "Empty CIDR list" ∧
    (∀ c : String, IPRangeAnalyzer.supernet [c] = Except.ok c) ∧
    (∃ p : Nat,
      IPRangeAnalyzer.supernet cidrs =
        Except.ok (IPConverter.int_to_ip (ip0 &&& pyMask (p : Int)) ++ "/" ++ toString p) ∧
      (p : Int) ≤ rest.foldl (fun m q => min m q.2) p0 ∧
      supernetAllMatch (ipps.map Prod.fst) ip0 p = true ∧
      (∀ q : Nat, (q : Int) ≤ rest.foldl (fun m q => min m q.2) p0 →
        supernetAllMatch (ipps.map Prod.fst) ip0 q = true → q ≤ p)) ∧
    IPRangeAnalyzer.supernet ["192.168.0.0/24", "192.168.1.0/24"] =
      Except.ok "192.168.0.0/23" := by
  have t1 : IPRangeAnalyzer.supernet [] = Except.error "Empty CIDR list" := rfl
  have t2 : ∀ c : String, IPRangeAnalyzer.supernet [c] = Except.ok c := fun c => rfl
  refine ⟨t1, t2, ?_, c7_concrete_pair⟩
  obtain ⟨c1, c2, tl, rfl⟩ : ∃ c1 c2 tl, cidrs = c1 :: c2 :: tl := by
    match cidrs, hlen with
    | c1 :: c2 :: tl, _ => exact ⟨c1, c2, tl, rfl⟩
  subst hshape
  have hminnn : 0 ≤ rest.foldl (fun m q => min m q.2) p0 :=
    foldl_min_nonneg rest p0 (by simpa using hpos (ip0, p0) (by simp))
      (fun q hq => hpos q (by simp [hq]))
  obtain ⟨p, hpM, hpmatch, hpmax, hploop⟩ :=
    supernetLoop_best (((ip0, p0) :: rest).map Prod.fst) ip0
      ((rest.foldl (fun m q => min m q.2) p0).toNat)
  refine ⟨p, ?_, by omega, hpmatch, ?_⟩
  · have hnneg : ¬ (rest.foldl (fun m q => min m q.2) p0 < 0) := by omega
    unfold IPRangeAnalyzer.supernet
    rw [hparse]
    simp only [if_neg hnneg]
    exact congrArg Except.ok hploop
  · intro q hq hqm
    exact hpmax q (by omega) hqm

theorem c7_supernet_witness :
    supernetParse ["192.168.0.0/24", "192.168.1.0/24"] =
      some [(3232235520, 24), (3232235776, 24)] ∧
    IPRangeAnalyzer.supernet ["192.168.0.0/24", "192.168.1.0/24"] =
      Except.ok "192.168.0.0/23" :=
  ⟨by decide,
    (c7_supernet ["192.168.0.0/24", "192.168.1.0/24"]
      [(3232235520, 24), (3232235776, 24)] 3232235520 24 [(3232235776, 24)]
      (by decide) (by decide) (by decide) (by decide)).2.2.2⟩
